import Mathlib

/-!
# A shallow embedding of the tower-defense simulation engine (src/src/game.js)

This file models the game's session state and the operations the
specification's claims are about: tower placement and its validation,
per-tick tower targeting and firing, projectile motion and impact
resolution (standard and splash), enemy path-following and breach,
wave completion, the timer-driven phase transitions, and reset/game-over.

Modelling conventions, chosen once and used throughout:

* JavaScript numbers are embedded as exact rationals (`ℚ`); money, lives
  and wave counters as `ℤ`/`ℕ`.  `Math.floor`/`Math.ceil` become
  `Int.floor`/`Int.ceil`.
* `Math.sqrt` is embedded as `Rat.sqrt`.  Wherever the source only
  *compares* two distances (target acquisition, impact threshold, splash
  radius, path clearance), the comparison is embedded on squared
  distances, which is equivalent on the nonnegative reals; wherever the
  *value* of a square root feeds further arithmetic (splash falloff,
  projectile motion, segment lengths of the fixed axis-aligned path) the
  embedded `Rat.sqrt` is exact precisely on perfect squares, and every
  property below is stated or instantiated there.
* JavaScript object identity of enemies is modelled by a numeric `id`
  field: `array.includes(obj)`, `filter(e => e !== obj)` and mutation
  through a shared reference become lookups/updates keyed by `id`.
* The `setInterval`/`setTimeout` machinery is modelled by an explicit
  table of pending timers with fresh numeric handles; a timer may fire
  whenever it is pending (an over-approximation of real-time scheduling
  that keeps every real interleaving).  Interval periods only pace
  real time and are not part of the event model.
* Purely presentational state is elided: the effect ledger (particles,
  floating text, rings), audio calls, DOM/UI updates, enemy pulse
  animation fields, tower aim angles and projectile trail counters.
  No gameplay logic reads any of it.
* `Math.random()` rolls are passed in explicitly as rational arguments
  (one stream for a tick, a single value per spawn).
* `calculateWaveDifficulty` adds `Math.log10(wave-9)*0.5` for waves
  beyond 10; the logarithm is irrational and that summand is omitted
  here.  No property below evaluates the difficulty factor past wave 10.
-/

namespace TD

/-- Canvas width in pixels (`canvas.width = 800`). -/
def canvasWidth : ℚ := 800

/-- Canvas height in pixels (`canvas.height = 600`). -/
def canvasHeight : ℚ := 600

/-- `gameState.gridSize` (never mutated by the source). -/
def gridSize : ℚ := 40

/-- `gameState.preparationTime`. -/
def preparationTime : ℤ := 5

/-- The optional special-ability descriptor of a tower spec:
`special: {type: 'critical', criticalChance, criticalMultiplier}` or
`special: {type: 'explosion', radius, falloff}`. -/
inductive SpecialAbility where
  | critical (criticalChance criticalMultiplier : ℚ)
  | explosion (radius falloff : ℚ)
deriving DecidableEq

/-- The string stored in the descriptor's own `type` field. -/
def SpecialAbility.typeTag : SpecialAbility → String
  | .critical _ _ => "critical"
  | .explosion _ _ => "explosion"

/-- A tower template from the `towerTypes` table.  Colour strings and the
description text are presentation-only and elided. -/
structure TowerSpec where
  cost : ℕ
  damage : ℚ
  range : ℚ
  fireRate : ℚ
  projectileSize : ℚ
  barrelLength : ℚ
  unlockWave : ℕ
  special : Option SpecialAbility
deriving DecidableEq

/-- The `towerTypes` lookup table. -/
def towerTypes : String → Option TowerSpec
  | "basic" => some
      { cost := 25, damage := 10, range := 120, fireRate := 1,
        projectileSize := 4, barrelLength := 10, unlockWave := 1, special := none }
  | "cannon" => some
      { cost := 60, damage := 30, range := 100, fireRate := 1/2,
        projectileSize := 6, barrelLength := 14, unlockWave := 2, special := none }
  | "magic" => some
      { cost := 100, damage := 15, range := 150, fireRate := 3/2,
        projectileSize := 5, barrelLength := 8, unlockWave := 3, special := none }
  | "sniper" => some
      { cost := 150, damage := 80, range := 250, fireRate := 1/4,
        projectileSize := 3, barrelLength := 18, unlockWave := 5,
        special := some (.critical (2/10) (5/2)) }
  | "bomber" => some
      { cost := 200, damage := 50, range := 180, fireRate := 3/10,
        projectileSize := 8, barrelLength := 12, unlockWave := 7,
        special := some (.explosion 60 (1/2)) }
  | _ => none

/-- An enemy template from the `enemyTypes` table (visual fields elided). -/
structure EnemySpec where
  health : ℚ
  speed : ℚ
  reward : ℚ
deriving DecidableEq

/-- The `enemyTypes` lookup table. -/
def enemyTypes : String → Option EnemySpec
  | "basic" => some { health := 40, speed := 1, reward := 10 }
  | "fast" => some { health := 25, speed := 2, reward := 15 }
  | "strong" => some { health := 100, speed := 7/10, reward := 20 }
  | "boss" => some { health := 300, speed := 1/2, reward := 50 }
  | _ => none

/-- The fixed waypoint path. -/
def path : List (ℚ × ℚ) :=
  [(0, 120), (200, 120), (200, 280), (400, 280),
   (400, 120), (600, 120), (600, 400), (800, 400)]

/-- A tower instance as built by `placeTower`: position, the `type` string,
runtime fields, the fields spread from its spec, and the fields merged in
from the spec's `special` descriptor (absent JavaScript properties are
`none`).  The aim angle is elided (presentation only). -/
structure Tower where
  x : ℚ
  y : ℚ
  type : String
  lastShot : ℚ
  target : Option ℕ
  cost : ℕ
  damage : ℚ
  range : ℚ
  fireRate : ℚ
  projectileSize : ℚ
  barrelLength : ℚ
  unlockWave : ℕ
  criticalChance : Option ℚ
  criticalMultiplier : Option ℚ
  radius : Option ℚ
  falloff : Option ℚ
deriving DecidableEq

/-- The object literal plus `Object.assign(tower, towerData.special)` in
`placeTower`: the spread copies the spec's fields next to `type:towerType`,
then the special descriptor's own fields — `type` included — overwrite. -/
def mkTower (x y : ℚ) (towerType : String) (towerData : TowerSpec) : Tower :=
  let base : Tower :=
    { x := x, y := y, type := towerType, lastShot := 0, target := none,
      cost := towerData.cost, damage := towerData.damage, range := towerData.range,
      fireRate := towerData.fireRate, projectileSize := towerData.projectileSize,
      barrelLength := towerData.barrelLength, unlockWave := towerData.unlockWave,
      criticalChance := none, criticalMultiplier := none,
      radius := none, falloff := none }
  match towerData.special with
  | none => base
  | some (.critical c m) =>
      { base with type := "critical", criticalChance := some c, criticalMultiplier := some m }
  | some (.explosion r f) =>
      { base with type := "explosion", radius := some r, falloff := some f }

/-- An enemy instance (`spawnEnemy` object literal; pulse fields elided).
`id` models JavaScript object identity. -/
structure Enemy where
  id : ℕ
  x : ℚ
  y : ℚ
  type : String
  health : ℚ
  maxHealth : ℚ
  speed : ℚ
  reward : ℕ
  pathIndex : ℕ
  progress : ℚ
deriving DecidableEq

/-- A projectile instance (trail fields elided; `target` holds the id of
the referenced enemy, `explosionRadius`/`falloff` are absent on standard
projectiles). -/
structure Projectile where
  x : ℚ
  y : ℚ
  targetX : ℚ
  targetY : ℚ
  target : ℕ
  damage : ℚ
  speed : ℚ
  size : ℚ
  type : String
  explosionRadius : Option ℚ
  falloff : Option ℚ
deriving DecidableEq

/-- A pending `setInterval`/`setTimeout` callback, with the mutable local
variables its closure captures. -/
inductive TimerKind where
  | prep
  | spawn (enemiesSpawned enemyCount : ℕ)
  | bonus (amount : ℤ)
  | countdown (remaining : ℤ)
deriving DecidableEq

/-- The mutable session state (`gameState`), together with the pending
timer table and fresh handle and id counters of the model. -/
structure GState where
  money : ℤ
  lives : ℤ
  wave : ℕ
  isPlaying : Bool
  selectedTower : Option String
  towers : List Tower
  enemies : List Enemy
  projectiles : List Projectile
  waveTimeout : Option ℕ
  enemySpawnInterval : Option ℕ
  gameScreen : String
  preparationPhase : Bool
  preparationTimer : ℤ
  difficultyFactor : ℚ
  waveCompleted : Bool
  waveStarted : Bool
  timers : List (ℕ × TimerKind)
  nextTimer : ℕ
  nextEnemyId : ℕ
deriving DecidableEq

/-- The initial `gameState` literal. -/
def initGameState : GState :=
  { money := 75, lives := 1, wave := 1, isPlaying := false, selectedTower := none,
    towers := [], enemies := [], projectiles := [], waveTimeout := none,
    enemySpawnInterval := none, gameScreen := "mainMenu", preparationPhase := true,
    preparationTimer := 5, difficultyFactor := 1, waveCompleted := false,
    waveStarted := false, timers := [], nextTimer := 0, nextEnemyId := 0 }

/-- Squared Euclidean distance. -/
def dist2 (x1 y1 x2 y2 : ℚ) : ℚ := (x2 - x1) ^ 2 + (y2 - y1) ^ 2

/-- Remove a timer by handle (`clearInterval`/`clearTimeout`). -/
def clearTimer (h : ℕ) (ts : List (ℕ × TimerKind)) : List (ℕ × TimerKind) :=
  ts.filter (fun p => p.1 ≠ h)

/-- Register a fresh timer (`setInterval`/`setTimeout`), returning its handle. -/
def setTimer (k : TimerKind) (s : GState) : ℕ × GState :=
  (s.nextTimer,
   { s with timers := s.timers ++ [(s.nextTimer, k)], nextTimer := s.nextTimer + 1 })

/-- `calculateWaveDifficulty` (the `log10` summand for waves past 10 is
omitted, see the header). -/
def calculateWaveDifficulty (wave : ℕ) : ℚ := 1 + ((wave : ℚ) - 1) * (15/100)

/-- `startWave`: clear any old spawn interval, recompute the difficulty
factor and the wave's enemy count, reset `waveCompleted`, and start the
spawn schedule. -/
def startWave (s : GState) : GState :=
  let s1 := match s.enemySpawnInterval with
    | some h => { s with timers := clearTimer h s.timers }
    | none => s
  let s2 := { s1 with difficultyFactor := calculateWaveDifficulty s1.wave }
  let enemyCount : ℕ := (⌊(8 : ℚ) * (1 + ((s2.wave : ℚ) - 1) * (2/10))⌋).toNat
  let s3 := { s2 with waveCompleted := false }
  let hs := setTimer (.spawn 0 enemyCount) s3
  { hs.2 with enemySpawnInterval := some hs.1 }

/-- `selectEnemyTypeForWave`, with the `Math.random()` roll passed in. -/
def selectEnemyTypeForWave (wave : ℕ) (rand : ℚ) : String :=
  if wave % 5 = 0 then (if rand < 3/10 then "boss" else "strong")
  else if wave ≤ 2 then "basic"
  else if wave ≤ 4 then (if rand < 7/10 then "basic" else "fast")
  else if wave ≤ 7 then
    (if rand < 5/10 then "basic" else if rand < 8/10 then "fast" else "strong")
  else
    (if rand < 3/10 then "basic" else if rand < 6/10 then "fast"
     else if rand < 9/10 then "strong" else "boss")

/-- `spawnEnemy`: health scaled by the difficulty factor (floored), reward
scaled linearly in the wave (ceiled), spawned at the first waypoint. -/
def spawnEnemy (kind : String) (s : GState) : GState :=
  match enemyTypes kind with
  | none => s
  | some et =>
    let scaledHealth : ℚ := ((⌊et.health * s.difficultyFactor⌋ : ℤ) : ℚ)
    let p0 := path.getD 0 (0, 0)
    let e : Enemy :=
      { id := s.nextEnemyId, x := p0.1, y := p0.2, type := kind,
        health := scaledHealth, maxHealth := scaledHealth, speed := et.speed,
        reward := (⌈et.reward * (1 + ((s.wave : ℚ) - 1) * (1/10))⌉).toNat,
        pathIndex := 0, progress := 0 }
    { s with enemies := s.enemies ++ [e], nextEnemyId := s.nextEnemyId + 1 }

/-- `checkWaveCompletion`: fires exactly when the wave is not already
completed, no enemy is live, no spawn is pending and the wave was started;
it then marks completion and schedules the bonus payment (a 1s timeout)
and the next-wave countdown (an interval counting 8 down to 0). -/
def checkWaveCompletion (s : GState) : GState :=
  if s.waveCompleted = false ∧ s.enemies = [] ∧ s.enemySpawnInterval = none ∧
      s.waveStarted = true then
    let s1 := { s with waveCompleted := true }
    let waveBonus : ℤ := ⌊(20 : ℚ) + (s1.wave : ℚ) * 5⌋
    let s2 := (setTimer (.bonus waveBonus) s1).2
    (setTimer (.countdown 8) s2).2
  else s

/-- `gameOver`: freezes the loop (DOM overlay elided).  It cancels no
timer. -/
def gameOver (s : GState) : GState := { s with isPlaying := false }

/-- Fire one pending timer callback by handle.  `rand` feeds the enemy
kind roll of a spawn tick; other callbacks ignore it. -/
def fireTimer (h : ℕ) (rand : ℚ) (s : GState) : GState :=
  match s.timers.find? (fun p => p.1 == h) with
  | none => s
  | some p =>
    match p.2 with
    | .prep =>
      let s1 := { s with preparationTimer := s.preparationTimer - 1 }
      if s1.preparationTimer ≤ 0 then
        startWave { s1 with timers := clearTimer h s1.timers,
                            preparationPhase := false, waveStarted := true }
      else s1
    | .spawn spawned count =>
      if spawned ≥ count then
        -- the callback clears `gameState.enemySpawnInterval` and nulls it
        let s1 := match s.enemySpawnInterval with
          | some h2 => { s with timers := clearTimer h2 s.timers }
          | none => s
        { s1 with enemySpawnInterval := none }
      else
        let s1 := spawnEnemy (selectEnemyTypeForWave s.wave rand) s
        let ts := s1.timers.map (fun q => if q.1 == h then (q.1, TimerKind.spawn (spawned + 1) count) else q)
        { s1 with timers := ts }
    | .bonus amount =>
      { s with money := s.money + amount, timers := clearTimer h s.timers }
    | .countdown remaining =>
      let r := remaining - 1
      if r ≤ 0 then
        startWave { s with timers := clearTimer h s.timers, wave := s.wave + 1,
                           waveCompleted := false }
      else
        let ts := s.timers.map (fun q => if q.1 == h then (q.1, TimerKind.countdown r) else q)
        { s with timers := ts }

/-- `resetGame`: restore the starting session fields and clear the two
timer references `gameState` holds (`enemySpawnInterval`, and the never-set
`waveTimeout`).  The preparation and countdown intervals and the bonus
timeout are held only in local variables and are not cleared. -/
def resetGame (s : GState) : GState :=
  let s1 := { s with
    money := 75, lives := 1, wave := 1, towers := [],
    enemies := [], projectiles := [], selectedTower := none,
    difficultyFactor := 1, waveCompleted := false, waveStarted := false }
  let s2 := match s1.enemySpawnInterval with
    | some h => { s1 with timers := clearTimer h s1.timers, enemySpawnInterval := none }
    | none => s1
  match s2.waveTimeout with
  | some h => { s2 with timers := clearTimer h s2.timers, waveTimeout := none }
  | none => s2

/-- `startGame`: enter the game screen in the preparation phase with
`waveStarted = false`, and start the 1-second preparation interval. -/
def startGame (s : GState) : GState :=
  let s1 := { s with
    isPlaying := true, gameScreen := "game",
    preparationPhase := true, preparationTimer := preparationTime,
    wave := 1, waveStarted := false }
  (setTimer .prep s1).2

/-- The result of advancing one enemy for one tick. -/
inductive EnemyStep where
  | live (e : Enemy)
  | breach
deriving DecidableEq

/-- One enemy's movement for one tick (`updateEnemies` loop body): add the
speed to the segment progress; on reaching the segment length, reset the
progress and advance the index, breaching when the index reaches the final
waypoint.  The closing interpolation uses the segment points fetched at
entry — after a segment transition the position is therefore the *old*
segment's start for one tick, exactly as in the source. -/
def stepEnemy (e : Enemy) : EnemyStep :=
  let cur := path.getD e.pathIndex (0, 0)
  let nxt := path.getD (e.pathIndex + 1) (0, 0)
  let dx := nxt.1 - cur.1
  let dy := nxt.2 - cur.2
  let distance := Rat.sqrt (dx * dx + dy * dy)
  let prog := e.progress + e.speed
  if prog ≥ distance then
    if e.pathIndex + 1 ≥ path.length - 1 then .breach
    else
      .live { e with progress := 0, pathIndex := e.pathIndex + 1,
                     x := cur.1 + dx * (0 / distance), y := cur.2 + dy * (0 / distance) }
  else
    .live { e with progress := prog,
                   x := cur.1 + dx * (prog / distance), y := cur.2 + dy * (prog / distance) }

/-- The `updateEnemies` loop, iterating from the last index down to 0 (the
head of the list is processed last).  A breach `return`s out of the whole
loop: the flag is `true` and every not-yet-visited enemy is left as it
was. -/
def updateEnemiesCore : List Enemy → List Enemy × Bool
  | [] => ([], false)
  | e :: es =>
    let r := updateEnemiesCore es
    if r.2 then (e :: r.1, true)
    else match stepEnemy e with
      | .live e2 => (e2 :: r.1, false)
      | .breach => (r.1, true)

/-- `updateEnemies`: on a breach, decrement lives, drop the breaching
enemy (no reward) and call `gameOver` — unconditionally, whatever the
remaining lives. -/
def updateEnemies (s : GState) : GState :=
  let r := updateEnemiesCore s.enemies
  if r.2 then gameOver { s with enemies := r.1, lives := s.lives - 1 }
  else { s with enemies := r.1 }

/-- `gameState.enemies.includes(target)` under the id model. -/
def isLive (id : ℕ) (l : List Enemy) : Bool := l.any (fun e => e.id == id)

/-- Look an enemy up by id (dereferencing a JavaScript object reference). -/
def findEnemy (id : ℕ) (l : List Enemy) : Option Enemy := l.find? (fun e => e.id == id)

/-- `enemy.health = h` through a shared reference. -/
def setEnemyHealth (id : ℕ) (h : ℚ) (l : List Enemy) : List Enemy :=
  l.map (fun e => if e.id == id then { e with health := h } else e)

/-- `defeatEnemy`: grant the enemy's reward and remove it from the live
list (`filter(e => e !== enemy)`); effects and UI calls elided. -/
def defeatEnemy (e : Enemy) (s : GState) : GState :=
  { s with money := s.money + (e.reward : ℤ),
           enemies := s.enemies.filter (fun x => x.id != e.id) }

/-- The target-acquisition scan of `updateTowers`: start the bound at the
tower's range, keep any enemy strictly closer than the current bound.  The
source compares `Math.sqrt` distances; the scan is embedded on squared
distances, equivalent for the (nonnegative) ranges of every tower spec. -/
def acquireGo (t : Tower) : List Enemy → Option Enemy → ℚ → Option Enemy
  | [], best, _ => best
  | e :: es, best, bound2 =>
    let d2 := dist2 t.x t.y e.x e.y
    if d2 < bound2 then acquireGo t es (some e) d2
    else acquireGo t es best bound2

/-- Target acquisition for one tower. -/
def acquireTarget (t : Tower) (enemies : List Enemy) : Option Enemy :=
  acquireGo t enemies none (t.range ^ 2)

/-- `createStandardProjectile`: spawn at the barrel tip along the aim
direction (`cos (atan2 dy dx) = dx / √(dx²+dy²)`), speed 5, the tower's
damage and the *tower's* `type` string. -/
def createStandardProjectile (t : Tower) (target : Enemy) (s : GState) : GState :=
  let d := Rat.sqrt (dist2 t.x t.y target.x target.y)
  let spawnX := t.x + (target.x - t.x) / d * t.barrelLength
  let spawnY := t.y + (target.y - t.y) / d * t.barrelLength
  { s with projectiles := s.projectiles ++
    [{ x := spawnX, y := spawnY, targetX := target.x, targetY := target.y,
       target := target.id, damage := t.damage, speed := 5,
       size := t.projectileSize, type := t.type,
       explosionRadius := none, falloff := none }] }

/-- `createBomberProjectile`: speed 4, type `"bomber"`, carrying the
tower's (merged) `radius` and `falloff` fields. -/
def createBomberProjectile (t : Tower) (target : Enemy) (s : GState) : GState :=
  let d := Rat.sqrt (dist2 t.x t.y target.x target.y)
  let spawnX := t.x + (target.x - t.x) / d * t.barrelLength
  let spawnY := t.y + (target.y - t.y) / d * t.barrelLength
  { s with projectiles := s.projectiles ++
    [{ x := spawnX, y := spawnY, targetX := target.x, targetY := target.y,
       target := target.id, damage := t.damage, speed := 4,
       size := t.projectileSize, type := "bomber",
       explosionRadius := t.radius, falloff := t.falloff }] }

/-- One tower's turn in `updateTowers`: skip while on cooldown; otherwise
scan for a target; on acquiring one, stamp `lastShot := now`, store the
target and resolve the attack by the tower's `type` string — `"sniper"`
applies (possibly critical) damage instantly, `"bomber"` launches a splash
projectile, every other string launches a standard projectile.  Returns
the updated tower, the unconsumed random rolls and the updated state. -/
def stepTower (now : ℚ) (t : Tower) (rands : List ℚ) (s : GState) :
    Tower × List ℚ × GState :=
  if now - t.lastShot < 1000 / t.fireRate then (t, rands, s)
  else match acquireTarget t s.enemies with
    | none => (t, rands, s)
    | some closestEnemy =>
      let t1 := { t with lastShot := now, target := some closestEnemy.id }
      if t1.type = "sniper" then
        let rand := rands.headD 0
        let isCritical : Bool := match t1.criticalChance with
          | some c => decide (rand < c)
          | none => false
        let damage : ℚ := if isCritical
          then ((⌊t1.damage * t1.criticalMultiplier.getD 0⌋ : ℤ) : ℚ)
          else t1.damage
        let newHealth := closestEnemy.health - damage
        let s1 := { s with enemies := setEnemyHealth closestEnemy.id newHealth s.enemies }
        let s2 := if newHealth ≤ 0
          then defeatEnemy { closestEnemy with health := newHealth } s1
          else s1
        (t1, rands.tail, s2)
      else if t1.type = "bomber" then
        (t1, rands, createBomberProjectile t1 closestEnemy s)
      else
        (t1, rands, createStandardProjectile t1 closestEnemy s)

/-- The `updateTowers` loop over the tower list, threading the state and
the random stream in order. -/
def updateTowersGo (now : ℚ) : List Tower → List ℚ → GState → List Tower × GState
  | [], _, s => ([], s)
  | t :: ts, rands, s =>
    let r := stepTower now t rands s
    let rest := updateTowersGo now ts r.2.1 r.2.2
    (r.1 :: rest.1, rest.2)

/-- `updateTowers`. -/
def updateTowers (now : ℚ) (rands : List ℚ) (s : GState) : GState :=
  let r := updateTowersGo now s.towers rands s
  { r.2 with towers := r.1 }

/-- The splash loop body of `updateProjectiles`: skip the primary target;
damage every other enemy within the radius by the falloff-attenuated,
floored amount when it is positive, defeating on a kill.  `eSnap` is the
enemy as seen by the iteration snapshot; its live entry (same id) still
carries the same fields whenever the loop is entered with a duplicate-free
snapshot of the live list, as in the source. -/
def splashStep (impactX impactY damage radius falloff : ℚ) (targetId : ℕ)
    (eSnap : Enemy) (s : GState) : GState :=
  if eSnap.id == targetId then s
  else
    let d2 := dist2 impactX impactY eSnap.x eSnap.y
    if d2 ≤ radius ^ 2 then
      let damagePercent := 1 - (Rat.sqrt d2 / radius) * falloff
      let areaDamage : ℤ := ⌊damage * damagePercent⌋
      if 0 < areaDamage then
        let newHealth := eSnap.health - (areaDamage : ℚ)
        let s1 := { s with enemies := setEnemyHealth eSnap.id newHealth s.enemies }
        if newHealth ≤ 0 then defeatEnemy { eSnap with health := newHealth } s1 else s1
      else s
    else s

/-- The `for (const enemy of gameState.enemies)` splash loop, iterating
over the snapshot taken when the explosion resolves. -/
def splashAll (impactX impactY damage radius falloff : ℚ) (targetId : ℕ) :
    List Enemy → GState → GState
  | [], s => s
  | e :: es, s =>
    splashAll impactX impactY damage radius falloff targetId es
      (splashStep impactX impactY damage radius falloff targetId e s)

/-- One projectile's turn in `updateProjectiles`: refresh the aim point if
the target is live; within 5 units of it, resolve the impact (standard or
splash) and drop the projectile — a stale target also drops it with no
damage; otherwise home toward the aim point with the close-range speed
bonus.  Returns `none` when the projectile is removed. -/
def stepProjectile (p : Projectile) (s : GState) : Option Projectile × GState :=
  let p1 :=
    match findEnemy p.target s.enemies with
    | some tgt => { p with targetX := tgt.x, targetY := tgt.y }
    | none => p
  let dx : ℚ := p1.targetX - p1.x
  let dy : ℚ := p1.targetY - p1.y
  let d2 : ℚ := dist2 p1.x p1.y p1.targetX p1.targetY
  if d2 < 25 then
    match findEnemy p1.target s.enemies with
    | some tgt =>
      if p1.type = "bomber" then
        let radius := p1.explosionRadius.getD 0
        let falloff := p1.falloff.getD 0
        let newHealth := tgt.health - p1.damage
        let s1 := { s with enemies := setEnemyHealth tgt.id newHealth s.enemies }
        let s2 := splashAll p1.targetX p1.targetY p1.damage radius falloff tgt.id
          s1.enemies s1
        let s3 := match findEnemy p1.target s2.enemies with
          | some tgt2 => if tgt2.health ≤ 0 then defeatEnemy tgt2 s2 else s2
          | none => s2
        (none, s3)
      else
        let newHealth := tgt.health - p1.damage
        let s1 := { s with enemies := setEnemyHealth tgt.id newHealth s.enemies }
        let s2 := if newHealth ≤ 0
          then defeatEnemy { tgt with health := newHealth } s1
          else s1
        (none, s2)
    | none => (none, s)
  else
    let distance := Rat.sqrt d2
    let speed := p1.speed * (1 + (1/10) * (1 - distance / 300))
    (some { p1 with x := p1.x + dx / distance * speed, y := p1.y + dy / distance * speed }, s)

/-- The `updateProjectiles` loop, iterating from the last index down to 0
(the head of the list is processed last); removed projectiles are dropped
from the rebuilt list. -/
def updateProjectilesGo : List Projectile → GState → List Projectile × GState
  | [], s => ([], s)
  | p :: ps, s =>
    let rest := updateProjectilesGo ps s
    let r := stepProjectile p rest.2
    (match r.1 with
     | some p2 => p2 :: rest.1
     | none => rest.1, r.2)

/-- `updateProjectiles`. -/
def updateProjectiles (s : GState) : GState :=
  let r := updateProjectilesGo s.projectiles s
  { r.2 with projectiles := r.1 }

/-- `update` — the per-tick pass in source order: wave-completion check,
enemy movement, tower fire, projectile resolution (effect aging elided). -/
def update (now : ℚ) (rands : List ℚ) (s : GState) : GState :=
  updateProjectiles (updateTowers now rands (updateEnemies (checkWaveCompletion s)))

/-- One `gameLoop` frame: the simulation runs only on the game screen
while playing (rendering elided). -/
def tick (now : ℚ) (rands : List ℚ) (s : GState) : GState :=
  if s.gameScreen = "game" ∧ s.isPlaying = true then update now rands s else s

/-- The boundary check of `isPositionValid`. -/
def outOfBounds (x y : ℚ) : Bool :=
  if x < 20 ∨ y < 20 ∨ x > canvasWidth - 20 ∨ y > canvasHeight - 20 then true else false

/-- The per-tower clearance check of `isPositionValid`. -/
def towerTooClose (t : Tower) (x y : ℚ) : Bool :=
  if |t.x - x| < gridSize ∧ |t.y - y| < gridSize then true else false

/-- The inner sampling loop of the path-proximity check: sample points
`j = 0 … steps` along the segment and flag any sample strictly within 30
units (embedded as a squared comparison). -/
def segmentSampleHit (ax ay dx dy : ℚ) (steps : ℕ) (x y : ℚ) : ℕ → Bool
  | 0 =>
    if dist2 (ax + dx * 0 / steps) (ay + dy * 0 / steps) x y < 900 then true else false
  | j + 1 =>
    if dist2 (ax + dx * (j + 1) / steps) (ay + dy * (j + 1) / steps) x y < 900 then true
    else segmentSampleHit ax ay dx dy steps x y j

/-- The per-segment path-proximity check: segment length by `Math.sqrt`
(exact here: the fixed path is axis-aligned), `steps = ⌈length/10⌉`
samples. -/
def segmentBlocks (a b : ℚ × ℚ) (x y : ℚ) : Bool :=
  let dx := b.1 - a.1
  let dy := b.2 - a.2
  let length := Rat.sqrt (dx * dx + dy * dy)
  let steps : ℕ := (⌈length / 10⌉).toNat
  segmentSampleHit a.1 a.2 dx dy steps x y steps

/-- The consecutive waypoint pairs of the path. -/
def pathSegments : List ((ℚ × ℚ) × (ℚ × ℚ)) := path.zip path.tail

/-- `isPositionValid`: inside the playable bounds, clear of every placed
tower, and clear of every sampled path point. -/
def isPositionValid (towers : List Tower) (x y : ℚ) : Bool :=
  if outOfBounds x y then false
  else if towers.any (fun t => towerTooClose t x y) then false
  else if pathSegments.any (fun seg => segmentBlocks seg.1 seg.2 x y) then false
  else true

/-- `placeTower`: build the instance (spec fields spread, then the special
descriptor merged over them), deduct its cost, append it.  The kind string
always names a `towerTypes` entry on every call path of the source. -/
def placeTower (x y : ℚ) (towerType : String) (s : GState) : GState :=
  match towerTypes towerType with
  | none => s
  | some towerData =>
    let tower := mkTower x y towerType towerData
    { s with money := s.money - (tower.cost : ℤ), towers := s.towers ++ [tower] }

/-- `selectTower`: record the pending kind only when it is unlocked and
affordable (otherwise only feedback text is shown, elided here). -/
def selectTower (towerType : String) (s : GState) : GState :=
  match towerTypes towerType with
  | none => s
  | some towerData =>
    if s.wave ≥ towerData.unlockWave ∧ s.money ≥ (towerData.cost : ℤ)
    then { s with selectedTower := some towerType }
    else s

/-- `handleCanvasClick`: with the game running and a kind pending, align
the click to the grid; place on a valid position (clearing the pending
kind), otherwise only feedback (elided) — money and towers unchanged. -/
def handleCanvasClick (x y : ℚ) (s : GState) : GState :=
  if s.isPlaying = true then
    match s.selectedTower with
    | none => s
    | some kind =>
      let gridX : ℚ := ((⌊x / gridSize⌋ : ℤ) : ℚ) * gridSize
      let gridY : ℚ := ((⌊y / gridSize⌋ : ℤ) : ℚ) * gridSize
      if isPositionValid s.towers gridX gridY then
        { placeTower gridX gridY kind s with selectedTower := none }
      else s
  else s

/-- Every externally driven transition of the session: a frame tick, one
timer callback, the placement-UI entry points, and session start/reset. -/
inductive Step : GState → GState → Prop where
  | tick (now : ℚ) (rands : List ℚ) (s : GState) : Step s (tick now rands s)
  | timer (h : ℕ) (rand : ℚ) (s : GState) : Step s (fireTimer h rand s)
  | select (k : String) (s : GState) : Step s (selectTower k s)
  | click (x y : ℚ) (s : GState) : Step s (handleCanvasClick x y s)
  | start (s : GState) : Step s (startGame s)
  | reset (s : GState) : Step s (resetGame s)

/-- States reachable from the initial `gameState`. -/
def Reachable (s : GState) : Prop := Relation.ReflTransGen Step initGameState s

/-- Duplicate-free enemy ids: object identities are distinct in the live
list (spawning always mints a fresh object). -/
def NodupIds (l : List Enemy) : Prop := (l.map Enemy.id).Nodup

/-- The total reward still carried by a list of live enemies. -/
def sumRewards (l : List Enemy) : ℤ := (l.map (fun e => (e.reward : ℤ))).sum

/-- The `towerTypes` entry for `"basic"`, named for concrete scenarios. -/
def basicSpec : TowerSpec :=
  { cost := 25, damage := 10, range := 120, fireRate := 1,
    projectileSize := 4, barrelLength := 10, unlockWave := 1, special := none }

/-- The `towerTypes` entry for `"sniper"`, named for concrete scenarios. -/
def sniperSpec : TowerSpec :=
  { cost := 150, damage := 80, range := 250, fireRate := 1/4,
    projectileSize := 3, barrelLength := 18, unlockWave := 5,
    special := some (.critical (2/10) (5/2)) }

/-- The `towerTypes` entry for `"bomber"`, named for concrete scenarios. -/
def bomberSpec : TowerSpec :=
  { cost := 200, damage := 50, range := 180, fireRate := 3/10,
    projectileSize := 8, barrelLength := 12, unlockWave := 7,
    special := some (.explosion 60 (1/2)) }

/-- A basic-kind enemy standing at a chosen spot, for concrete scenarios. -/
def enemyAt (id : ℕ) (x y health : ℚ) (reward : ℕ) : Enemy :=
  { id := id, x := x, y := y, type := "basic", health := health, maxHealth := health,
    speed := 1, reward := reward, pathIndex := 0, progress := 0 }

/-- A placed bomber tower with one enemy 40 units away, both off cooldown:
the input on which the bomber-kind firing path is exercised. -/
def cexBomberState : GState :=
  { initGameState with isPlaying := true, gameScreen := "game",
                       towers := [mkTower 80 240 "bomber" bomberSpec],
                       enemies := [enemyAt 0 120 240 40 10] }

/-- A placed sniper tower with one enemy 40 units away, off cooldown. -/
def cexSniperState : GState :=
  { initGameState with isPlaying := true, gameScreen := "game",
                       towers := [mkTower 80 240 "sniper" sniperSpec],
                       enemies := [enemyAt 1 120 240 40 10] }

/-- An enemy one unit short of the final waypoint, with the wave's spawn
schedule still pending (3 of 8 spawned): the input exercising a breach. -/
def cexBreachState : GState :=
  { initGameState with isPlaying := true, gameScreen := "game", waveStarted := true,
                       enemies := [{ enemyAt 7 600 400 40 10 with pathIndex := 6, progress := 199 }],
                       enemySpawnInterval := some 0,
                       timers := [(0, .spawn 3 8)], nextTimer := 1, nextEnemyId := 50 }

/-- A session in the wave-completion countdown (one second left), about to
be reset: the input exercising timer cancellation. -/
def cexResetState : GState :=
  { initGameState with isPlaying := true, gameScreen := "game", waveStarted := true,
                       waveCompleted := true, money := 140, wave := 1,
                       timers := [(5, .countdown 1)], nextTimer := 6 }

/-- A wave-1 session whose last enemy has just been cleared with the spawn
schedule exhausted: the wave-completion guard holds. -/
def wcState : GState := { initGameState with waveStarted := true }

/-- A running session with the basic kind pending, about to click an
empty spot: the input exercising a successful placement. -/
def pvState : GState :=
  { initGameState with isPlaying := true, gameScreen := "game",
                       selectedTower := some "basic" }

/-- Conservation of money plus outstanding rewards, together with removal
being the only list change: the shape every damage-resolution step keeps. -/
def Conserves (s s2 : GState) : Prop :=
  s2.money + sumRewards s2.enemies = s.money + sumRewards s.enemies ∧
  (s2.enemies.map Enemy.id).Sublist (s.enemies.map Enemy.id)

/-- A standard projectile literal, as `createStandardProjectile` builds
one, for concrete scenarios. -/
def standardShot (tid : ℕ) (x y tx ty dmg : ℚ) : Projectile :=
  { x := x, y := y, targetX := tx, targetY := ty, target := tid, damage := dmg,
    speed := 5, size := 4, type := "basic", explosionRadius := none, falloff := none }

/-- A bomber projectile literal, as `createBomberProjectile` builds one. -/
def bomberShot (tid : ℕ) (x y tx ty dmg R f : ℚ) : Projectile :=
  { x := x, y := y, targetX := tx, targetY := ty, target := tid, damage := dmg,
    speed := 4, size := 8, type := "bomber", explosionRadius := some R, falloff := some f }

/-- One enemy with 10 health left, a fourth 10-damage shot and a splash
shot both at impact range in the same resolution pass. -/
def cexPassState : GState :=
  { initGameState with
    money := 100,
    enemies := [enemyAt 0 400 300 10 12],
    projectiles := [standardShot 0 398 300 400 300 10,
                    bomberShot 0 402 300 400 300 50 60 (1/2)] }

/-- One enemy with 40 health and three 10-damage shots at impact range. -/
def cexTripleState : GState :=
  { initGameState with
    money := 100,
    enemies := [enemyAt 0 400 300 40 12],
    projectiles := [standardShot 0 398 300 400 300 10,
                    standardShot 0 397 300 400 300 10,
                    standardShot 0 396 300 400 300 10] }

/-- A bomber impact on a target at (400,300) with bystanders at exact
distances 30, 60 and 100 from the impact point. -/
def cexSplashState : GState :=
  { initGameState with
    enemies := [enemyAt 0 400 300 100 10, enemyAt 1 430 300 100 10,
                enemyAt 2 460 300 100 10, enemyAt 3 500 300 100 10],
    projectiles := [bomberShot 0 398 300 400 300 50 60 (1/2)] }

/-- Both wave-phase flags are unchanged by a transition. -/
def PW (s s2 : GState) : Prop :=
  s2.preparationPhase = s.preparationPhase ∧ s2.waveStarted = s.waveStarted

/-- The phase invariant: during the preparation phase the `waveStarted`
flag is still down. -/
def PrepInv (s : GState) : Prop := s.preparationPhase = true → s.waveStarted = false

end TD

namespace TD

/-- C10: `placeTower` merges the special descriptor's fields over the copied
spec fields, so the instance's `type` ends up the descriptor's type string
(`"critical"` for the sniper kind, `"explosion"` for the bomber kind), while
kinds without a descriptor keep the kind string. -/
theorem specialDescriptorOverridesType :
    (∀ x y kind spec sp, spec.special = some sp →
      (mkTower x y kind spec).type = sp.typeTag) ∧
    (∀ x y kind spec, spec.special = none →
      (mkTower x y kind spec).type = kind) ∧
    (∀ x y spec, towerTypes "sniper" = some spec →
      (mkTower x y "sniper" spec).type = "critical") ∧
    (∀ x y spec, towerTypes "bomber" = some spec →
      (mkTower x y "bomber" spec).type = "explosion") := by
  refine ⟨?_, ?_, ?_, ?_⟩
  · intro x y kind spec sp h
    cases sp <;> simp [mkTower, SpecialAbility.typeTag, h]
  · intro x y kind spec h
    simp [mkTower, h]
  · intro x y spec h
    simp only [towerTypes, Option.some.injEq] at h
    subst h
    simp [mkTower]
  · intro x y spec h
    simp only [towerTypes, Option.some.injEq] at h
    subst h
    simp [mkTower]

/-- Witness for C10 at the three placed kinds of the concrete scenarios. -/
theorem specialDescriptorOverridesTypeWitness :
    (mkTower 80 240 "bomber" bomberSpec).type = "explosion" ∧
    (mkTower 80 240 "sniper" sniperSpec).type = "critical" ∧
    (mkTower 40 520 "basic" basicSpec).type = "basic" := by
  refine ⟨specialDescriptorOverridesType.2.2.2 80 240 bomberSpec rfl,
          specialDescriptorOverridesType.2.2.1 80 240 sniperSpec rfl,
          specialDescriptorOverridesType.2.1 80 240 "basic" basicSpec rfl⟩

/-- C1 (failing-input evaluation): a placed bomber-kind tower carries the
type string `"explosion"`, so when it fires the combat pass takes the
standard-projectile branch: the spawned projectile is tagged `"explosion"`
(not `"bomber"`), carries no explosion radius or falloff, and moves at the
standard speed 5 (a bomber projectile would use 4). -/
theorem bomberKindFiresStandardProjectile :
    cexBomberState.towers.map Tower.type = ["explosion"] ∧
    (updateTowers 10000 [] cexBomberState).projectiles.map Projectile.type
      = ["explosion"] ∧
    (updateTowers 10000 [] cexBomberState).projectiles.map Projectile.explosionRadius
      = [none] ∧
    (updateTowers 10000 [] cexBomberState).projectiles.map Projectile.speed = [5] ∧
    (updateTowers 10000 [] cexBomberState).enemies.map Enemy.health = [40] := by
  refine ⟨by norm_num [cexBomberState, mkTower, bomberSpec, initGameState], ?_, ?_, ?_, ?_⟩ <;>
  · norm_num [updateTowers, updateTowersGo, stepTower, cexBomberState, mkTower,
      bomberSpec, acquireTarget, acquireGo, dist2, enemyAt, initGameState]
    norm_num [createStandardProjectile, dist2]
    simp

/-- C2 (failing-input evaluation): a placed sniper-kind tower carries the
type string `"critical"`, so when it fires no instant damage is applied —
the target's health is unchanged by the combat pass — and a standard
projectile tagged `"critical"` is spawned instead. -/
theorem sniperKindSpawnsProjectileNoInstantHit :
    cexSniperState.towers.map Tower.type = ["critical"] ∧
    (updateTowers 10000 [] cexSniperState).enemies.map Enemy.health = [40] ∧
    (updateTowers 10000 [] cexSniperState).projectiles.map Projectile.type
      = ["critical"] ∧
    (updateTowers 10000 [] cexSniperState).projectiles.length = 1 := by
  refine ⟨by norm_num [cexSniperState, mkTower, sniperSpec, initGameState], ?_, ?_, ?_⟩ <;>
  · norm_num [updateTowers, updateTowersGo, stepTower, cexSniperState, mkTower,
      sniperSpec, acquireTarget, acquireGo, dist2, enemyAt, initGameState]
    norm_num [createStandardProjectile, dist2]
    simp

end TD

namespace TD

/-- Case analysis of the target-acquisition fold: either nothing beat the
running bound (the running best survives), or the result is a list element
strictly under the bound, strictly closer than everything before it and no
farther than everything after it. -/
theorem acquireGo_cases (t : Tower) :
    ∀ (l : List Enemy) (best : Option Enemy) (b : ℚ),
    (acquireGo t l best b = best ∧ ∀ x ∈ l, ¬ dist2 t.x t.y x.x x.y < b) ∨
    (∃ pre e post, l = pre ++ e :: post ∧ acquireGo t l best b = some e ∧
      dist2 t.x t.y e.x e.y < b ∧
      (∀ x ∈ pre, dist2 t.x t.y e.x e.y < dist2 t.x t.y x.x x.y) ∧
      (∀ x ∈ post, dist2 t.x t.y e.x e.y ≤ dist2 t.x t.y x.x x.y)) := by
  intro l
  induction l with
  | nil => intro best b; left; simp [acquireGo]
  | cons x xs ih =>
    intro best b
    by_cases hx : dist2 t.x t.y x.x x.y < b
    · rcases ih (some x) (dist2 t.x t.y x.x x.y) with ⟨heq, hall⟩ |
        ⟨pre, e, post, hsplit, heq, hlt, hpre, hpost⟩
      · right
        refine ⟨[], x, xs, by simp, ?_, hx, by simp, ?_⟩
        · simp only [acquireGo, if_pos hx]; exact heq
        · intro z hz; exact le_of_not_lt (hall z hz)
      · right
        refine ⟨x :: pre, e, post, by simp [hsplit], ?_, lt_trans hlt hx, ?_, hpost⟩
        · simp only [acquireGo, if_pos hx]; exact heq
        · intro z hz
          rcases List.mem_cons.mp hz with rfl | hz2
          · exact hlt
          · exact hpre z hz2
    · rcases ih best b with ⟨heq, hall⟩ | ⟨pre, e, post, hsplit, heq, hlt, hpre, hpost⟩
      · left
        refine ⟨?_, ?_⟩
        · simp only [acquireGo, if_neg hx]; exact heq
        · intro z hz
          rcases List.mem_cons.mp hz with rfl | hz2
          · exact hx
          · exact hall z hz2
      · right
        refine ⟨x :: pre, e, post, by simp [hsplit], ?_, hlt, ?_, hpost⟩
        · simp only [acquireGo, if_neg hx]; exact heq
        · intro z hz
          rcases List.mem_cons.mp hz with rfl | hz2
          · exact lt_of_lt_of_le hlt (le_of_not_lt hx)
          · exact hpre z hz2

/-- C9: a tower on cooldown is skipped unchanged; with no enemy strictly
inside the range the tower stays idle and `lastShot` is untouched; an
acquired target is strictly within range, strictly closer than every
enemy scanned before it and no farther than every enemy after it (scan
order breaks ties); and an empty acquisition means no enemy is strictly
within range.  Distances are compared squared (§ header). -/
theorem towerTargetingPolicy :
    (∀ now t rands s, now - t.lastShot < 1000 / t.fireRate →
      stepTower now t rands s = (t, rands, s)) ∧
    (∀ now t rands s, ¬ now - t.lastShot < 1000 / t.fireRate →
      acquireTarget t s.enemies = none → stepTower now t rands s = (t, rands, s)) ∧
    (∀ t enemies e, acquireTarget t enemies = some e →
      ∃ pre post, enemies = pre ++ e :: post ∧
        dist2 t.x t.y e.x e.y < t.range ^ 2 ∧
        (∀ x ∈ pre, dist2 t.x t.y e.x e.y < dist2 t.x t.y x.x x.y) ∧
        (∀ x ∈ post, dist2 t.x t.y e.x e.y ≤ dist2 t.x t.y x.x x.y)) ∧
    (∀ t enemies, acquireTarget t enemies = none →
      ∀ e ∈ enemies, ¬ dist2 t.x t.y e.x e.y < t.range ^ 2) := by
  refine ⟨?_, ?_, ?_, ?_⟩
  · intro now t rands s h
    simp [stepTower, h]
  · intro now t rands s h hnone
    simp [stepTower, h, hnone]
  · intro t enemies e h
    rcases acquireGo_cases t enemies none (t.range ^ 2) with ⟨heq, _⟩ |
      ⟨pre, e2, post, hsplit, heq, hlt, hpre, hpost⟩
    · rw [acquireTarget, heq] at h; cases h
    · rw [acquireTarget] at h
      rw [heq] at h
      cases h
      exact ⟨pre, post, hsplit, hlt, hpre, hpost⟩
  · intro t enemies h
    rcases acquireGo_cases t enemies none (t.range ^ 2) with ⟨_, hall⟩ |
      ⟨pre, e2, post, _, heq, _, _, _⟩
    · exact hall
    · rw [acquireTarget, heq] at h; cases h

/-- Witness for C9: the bomber tower of the bomber scenario is skipped on
cooldown at `now = 100`; a basic tower at (80,240) facing one enemy out of
range and one 80 units away acquires the latter. -/
theorem towerTargetingPolicyWitness :
    (stepTower 100 (mkTower 80 240 "bomber" bomberSpec) [] cexBomberState
      = (mkTower 80 240 "bomber" bomberSpec, [], cexBomberState)) ∧
    (∃ pre post,
      [enemyAt 3 400 240 40 10, enemyAt 4 160 240 40 10] = pre ++ enemyAt 4 160 240 40 10 :: post ∧
      dist2 (mkTower 80 240 "basic" basicSpec).x (mkTower 80 240 "basic" basicSpec).y
        (enemyAt 4 160 240 40 10).x (enemyAt 4 160 240 40 10).y
        < (mkTower 80 240 "basic" basicSpec).range ^ 2 ∧
      (∀ x ∈ pre, dist2 (mkTower 80 240 "basic" basicSpec).x (mkTower 80 240 "basic" basicSpec).y
        (enemyAt 4 160 240 40 10).x (enemyAt 4 160 240 40 10).y
        < dist2 (mkTower 80 240 "basic" basicSpec).x (mkTower 80 240 "basic" basicSpec).y x.x x.y) ∧
      (∀ x ∈ post, dist2 (mkTower 80 240 "basic" basicSpec).x (mkTower 80 240 "basic" basicSpec).y
        (enemyAt 4 160 240 40 10).x (enemyAt 4 160 240 40 10).y
        ≤ dist2 (mkTower 80 240 "basic" basicSpec).x (mkTower 80 240 "basic" basicSpec).y x.x x.y)) := by
  constructor
  · exact towerTargetingPolicy.1 100 (mkTower 80 240 "bomber" bomberSpec) [] cexBomberState
      (by norm_num [mkTower, bomberSpec])
  · exact towerTargetingPolicy.2.2.1 (mkTower 80 240 "basic" basicSpec)
      [enemyAt 3 400 240 40 10, enemyAt 4 160 240 40 10] (enemyAt 4 160 240 40 10)
      (by norm_num [acquireTarget, acquireGo, mkTower, basicSpec, dist2, enemyAt])

end TD

namespace TD

theorem ratSqrt_sq {d : ℚ} (hd : 0 ≤ d) : Rat.sqrt (d ^ 2) = d := by
  rw [sq, Rat.sqrt_eq, abs_of_nonneg hd]

theorem findEnemy_set_self (i : ℕ) (h : ℚ) (l : List Enemy) :
    findEnemy i (setEnemyHealth i h l) =
      (findEnemy i l).map (fun e => { e with health := h }) := by
  induction l with
  | nil => rfl
  | cons x xs ih =>
    by_cases hx : x.id = i
    · simp [findEnemy, setEnemyHealth, List.find?_cons, hx]
    · simp only [findEnemy, setEnemyHealth, List.map_cons] at ih ⊢
      rw [if_neg (by simpa using hx)]
      rw [List.find?_cons_of_neg _ (by simpa using hx),
          List.find?_cons_of_neg _ (by simpa using hx)]
      exact ih

theorem findEnemy_set_other {i j : ℕ} (hne : i ≠ j) (h : ℚ) (l : List Enemy) :
    findEnemy i (setEnemyHealth j h l) = findEnemy i l := by
  induction l with
  | nil => rfl
  | cons x xs ih =>
    by_cases hx : x.id = i
    · subst hx
      simp [findEnemy, setEnemyHealth, List.find?_cons, hne, Ne.symm hne]
    · by_cases hxj : x.id = j
      · simp only [findEnemy, setEnemyHealth, List.map_cons] at ih ⊢
        rw [if_pos (by simpa using hxj)]
        rw [List.find?_cons_of_neg _ (by simpa using hx),
            List.find?_cons_of_neg _ (by simpa using hx)]
        exact ih
      · simp only [findEnemy, setEnemyHealth, List.map_cons] at ih ⊢
        rw [if_neg (by simpa using hxj)]
        rw [List.find?_cons_of_neg _ (by simpa using hx),
            List.find?_cons_of_neg _ (by simpa using hx)]
        exact ih

theorem findEnemy_filter_self (i : ℕ) (l : List Enemy) :
    findEnemy i (l.filter (fun x => x.id != i)) = none := by
  induction l with
  | nil => rfl
  | cons x xs ih =>
    by_cases hx : x.id = i
    · rw [List.filter_cons, if_neg (by simp [hx])]
      exact ih
    · rw [List.filter_cons, if_pos (by simp [hx])]
      rw [findEnemy, List.find?_cons_of_neg _ (by simp [hx])]
      exact ih

theorem findEnemy_filter_other {i j : ℕ} (hne : i ≠ j) (l : List Enemy) :
    findEnemy i (l.filter (fun x => x.id != j)) = findEnemy i l := by
  induction l with
  | nil => rfl
  | cons x xs ih =>
    simp only [findEnemy] at ih ⊢
    by_cases hxj : x.id = j
    · rw [List.filter_cons, if_neg (by simp [hxj])]
      rw [List.find?_cons_of_neg _ (by simp [hxj]; omega)]
      exact ih
    · rw [List.filter_cons, if_pos (by simp [hxj])]
      by_cases hx : x.id = i
      · rw [List.find?_cons_of_pos _ (by simp [hx]), List.find?_cons_of_pos _ (by simp [hx])]
      · rw [List.find?_cons_of_neg _ (by simp [hx]), List.find?_cons_of_neg _ (by simp [hx])]
        exact ih

theorem map_id_setEnemyHealth (i : ℕ) (h : ℚ) (l : List Enemy) :
    (setEnemyHealth i h l).map Enemy.id = l.map Enemy.id := by
  induction l with
  | nil => rfl
  | cons x xs ih =>
    simp only [setEnemyHealth, List.map_cons] at ih ⊢
    by_cases hx : x.id = i
    · rw [if_pos (by simp [hx])]
      simp only [List.map_cons, ih]
    · rw [if_neg (by simp [hx])]
      simp only [List.map_cons, ih]

theorem sumRewards_setEnemyHealth (i : ℕ) (h : ℚ) (l : List Enemy) :
    sumRewards (setEnemyHealth i h l) = sumRewards l := by
  induction l with
  | nil => rfl
  | cons x xs ih =>
    simp only [setEnemyHealth, sumRewards, List.map_cons, List.sum_cons] at ih ⊢
    by_cases hx : x.id = i
    · rw [if_pos (by simp [hx])]
      simp only [List.map_cons, List.sum_cons, ih]
    · rw [if_neg (by simp [hx])]
      simp only [List.map_cons, List.sum_cons, ih]

theorem findEnemy_of_mem_nodup {l : List Enemy} {e : Enemy}
    (hnd : NodupIds l) (he : e ∈ l) : findEnemy e.id l = some e := by
  induction l with
  | nil => cases he
  | cons x xs ih =>
    rcases List.mem_cons.mp he with rfl | he2
    · simp [findEnemy, List.find?_cons]
    · have hxe : ¬ x.id = e.id := by
        intro hcontra
        have : e.id ∈ xs.map Enemy.id := List.mem_map_of_mem Enemy.id he2
        rw [← hcontra] at this
        exact (List.nodup_cons.mp hnd).1 this
      rw [findEnemy, List.find?_cons_of_neg _ (by simpa using fun h => hxe h)]
      exact ih (List.nodup_cons.mp hnd).2 he2

theorem sumRewards_filter {l : List Enemy} {i : ℕ} {y : Enemy}
    (hnd : NodupIds l) (hfind : findEnemy i l = some y) :
    sumRewards (l.filter (fun x => x.id != i)) = sumRewards l - y.reward := by
  induction l with
  | nil => cases hfind
  | cons x xs ih =>
    by_cases hx : x.id = i
    · rw [findEnemy, List.find?_cons_of_pos _ (by simpa using hx)] at hfind
      cases hfind
      have hxs : ∀ z ∈ xs, z.id ≠ i := by
        intro z hz hcontra
        have : z.id ∈ xs.map Enemy.id := List.mem_map_of_mem Enemy.id hz
        rw [hcontra, ← hx] at this
        exact (List.nodup_cons.mp hnd).1 this
      have : xs.filter (fun z => z.id != i) = xs :=
        List.filter_eq_self.mpr (fun z hz => by simpa using hxs z hz)
      simp [List.filter_cons, hx, this, sumRewards]
    · rw [findEnemy, List.find?_cons_of_neg _ (by simpa using hx)] at hfind
      have := ih (List.nodup_cons.mp hnd).2 hfind
      rw [List.filter_cons, if_pos (by simp [hx])]
      simp [sumRewards] at this ⊢
      omega

end TD

namespace TD

theorem conserves_refl (s : GState) : Conserves s s := ⟨rfl, List.Sublist.refl _⟩

theorem conserves_trans {a b c : GState} (h1 : Conserves a b) (h2 : Conserves b c) :
    Conserves a c := ⟨by rw [h2.1, h1.1], h2.2.trans h1.2⟩

theorem Conserves.nodup {a b : GState} (h : Conserves a b) (hnd : NodupIds a.enemies) :
    NodupIds b.enemies := List.Nodup.sublist h.2 hnd

theorem setHealth_conserves (i : ℕ) (hp : ℚ) (s : GState) :
    Conserves s { s with enemies := setEnemyHealth i hp s.enemies } := by
  refine ⟨?_, ?_⟩
  · simp [sumRewards_setEnemyHealth]
  · simp only [map_id_setEnemyHealth]
    exact List.Sublist.refl _

theorem defeat_conserves {s : GState} {e : Enemy} (y : Enemy) (hnd : NodupIds s.enemies)
    (hfind : findEnemy e.id s.enemies = some y) (hrw : y.reward = e.reward) :
    Conserves s (defeatEnemy e s) := by
  refine ⟨?_, ?_⟩
  · simp only [defeatEnemy, sumRewards_filter hnd hfind, hrw]
    ring
  · exact List.Sublist.map _ (List.filter_sublist _)

theorem splashStep_conserves {ix iy D R f : ℚ} {tid : ℕ} {e : Enemy} {s : GState}
    (hnd : NodupIds s.enemies)
    (hpres : ∃ y, findEnemy e.id s.enemies = some y ∧ y.reward = e.reward) :
    Conserves s (splashStep ix iy D R f tid e s) := by
  obtain ⟨y, hfind, hrw⟩ := hpres
  unfold splashStep
  split
  · exact conserves_refl s
  · dsimp only
    split
    · split
      · set nh : ℚ := e.health - ((⌊D * (1 - Rat.sqrt (dist2 ix iy e.x e.y) / R * f)⌋ : ℤ) : ℚ) with hnh
        split
        · refine conserves_trans (setHealth_conserves e.id nh s)
            (defeat_conserves { y with health := nh } ?_ ?_ ?_)
          · simpa [NodupIds, map_id_setEnemyHealth] using hnd
          · show findEnemy e.id (setEnemyHealth e.id nh s.enemies) = _
            rw [findEnemy_set_self, hfind]
            rfl
          · simpa using hrw
        · exact setHealth_conserves e.id nh s
      · exact conserves_refl s
    · exact conserves_refl s

theorem splashStep_find_other {ix iy D R f : ℚ} {tid : ℕ} {e : Enemy} {s : GState}
    {i : ℕ} (hne : i ≠ e.id) :
    findEnemy i (splashStep ix iy D R f tid e s).enemies = findEnemy i s.enemies := by
  unfold splashStep
  split
  · rfl
  · dsimp only
    split
    · split
      · split
        · show findEnemy i (List.filter _ _) = _
          rw [findEnemy_filter_other hne, findEnemy_set_other hne]
        · exact findEnemy_set_other hne _ _
      · rfl
    · rfl

theorem splashAll_conserves (ix iy D R f : ℚ) (tid : ℕ) :
    ∀ (pending : List Enemy) (s : GState), NodupIds s.enemies →
    (pending.map Enemy.id).Nodup →
    (∀ x ∈ pending, ∃ y, findEnemy x.id s.enemies = some y ∧ y.reward = x.reward) →
    Conserves s (splashAll ix iy D R f tid pending s) := by
  intro pending
  induction pending with
  | nil => intro s _ _ _; exact conserves_refl s
  | cons e es ih =>
    intro s hnd hpnd hpres
    have h1 : Conserves s (splashStep ix iy D R f tid e s) :=
      splashStep_conserves hnd (hpres e (List.mem_cons_self e es))
    refine conserves_trans h1 (ih _ (h1.nodup hnd) (List.nodup_cons.mp hpnd).2 ?_)
    intro x hx
    obtain ⟨y, hfind, hrw⟩ := hpres x (List.mem_cons_of_mem e hx)
    have hne : x.id ≠ e.id := by
      intro hcontra
      have : x.id ∈ es.map Enemy.id := List.mem_map_of_mem Enemy.id hx
      rw [hcontra] at this
      exact (List.nodup_cons.mp hpnd).1 this
    exact ⟨y, by rw [splashStep_find_other hne]; exact hfind, hrw⟩

theorem splashAll_find_other {ix iy D R f : ℚ} {tid : ℕ} :
    ∀ (pending : List Enemy) (s : GState) (i : ℕ), i ∉ pending.map Enemy.id →
    findEnemy i (splashAll ix iy D R f tid pending s).enemies = findEnemy i s.enemies := by
  intro pending
  induction pending with
  | nil => intro s i _; rfl
  | cons e es ih =>
    intro s i hmem
    rw [List.map_cons, List.mem_cons] at hmem
    push_neg at hmem
    show findEnemy i (splashAll ix iy D R f tid es (splashStep ix iy D R f tid e s)).enemies = _
    rw [ih _ i hmem.2, splashStep_find_other hmem.1]

theorem splashAll_find_target {ix iy D R f : ℚ} {tid : ℕ} :
    ∀ (pending : List Enemy) (s : GState),
    findEnemy tid (splashAll ix iy D R f tid pending s).enemies = findEnemy tid s.enemies := by
  intro pending
  induction pending with
  | nil => intro s; rfl
  | cons e es ih =>
    intro s
    show findEnemy tid (splashAll ix iy D R f tid es (splashStep ix iy D R f tid e s)).enemies = _
    rw [ih]
    by_cases he : e.id = tid
    · unfold splashStep
      rw [if_pos (by simp [he])]
    · exact splashStep_find_other (fun h => he h.symm)

end TD

namespace TD

/-- What one splash-loop iteration does to the iterated enemy's own live
entry, when that entry still equals the snapshot value (as the source's
shared object references guarantee): inside the radius it loses the
floored, positive attenuated damage — being removed when this empties its
health — and otherwise stays untouched. -/
theorem splashStep_self (ix iy D R f : ℚ) (tid : ℕ) {e : Enemy} {s : GState}
    (hne : e.id ≠ tid) (hfind : findEnemy e.id s.enemies = some e) :
    findEnemy e.id (splashStep ix iy D R f tid e s).enemies =
      (if dist2 ix iy e.x e.y ≤ R ^ 2 then
        (if 0 < ⌊D * (1 - Rat.sqrt (dist2 ix iy e.x e.y) / R * f)⌋ then
          (if e.health - ((⌊D * (1 - Rat.sqrt (dist2 ix iy e.x e.y) / R * f)⌋ : ℤ) : ℚ) ≤ 0
            then none
            else some { e with health :=
              e.health - ((⌊D * (1 - Rat.sqrt (dist2 ix iy e.x e.y) / R * f)⌋ : ℤ) : ℚ) })
          else some e)
        else some e) := by
  unfold splashStep
  rw [if_neg (by simp [hne])]
  dsimp only
  split
  · split
    · split
      · simp only [defeatEnemy]
        exact findEnemy_filter_self e.id _
      · rw [findEnemy_set_self, hfind]
        rfl
    · exact hfind
  · exact hfind

/-- `splashStep_self` carried through the whole splash loop. -/
theorem splashAll_effect (ix iy D R f : ℚ) (tid : ℕ) {e : Enemy} :
    ∀ (pending : List Enemy) (s : GState), (pending.map Enemy.id).Nodup →
    e ∈ pending → e.id ≠ tid → findEnemy e.id s.enemies = some e →
    findEnemy e.id (splashAll ix iy D R f tid pending s).enemies =
      (if dist2 ix iy e.x e.y ≤ R ^ 2 then
        (if 0 < ⌊D * (1 - Rat.sqrt (dist2 ix iy e.x e.y) / R * f)⌋ then
          (if e.health - ((⌊D * (1 - Rat.sqrt (dist2 ix iy e.x e.y) / R * f)⌋ : ℤ) : ℚ) ≤ 0
            then none
            else some { e with health :=
              e.health - ((⌊D * (1 - Rat.sqrt (dist2 ix iy e.x e.y) / R * f)⌋ : ℤ) : ℚ) })
          else some e)
        else some e) := by
  intro pending
  induction pending with
  | nil => intro s _ he; cases he
  | cons x xs ih =>
    intro s hnd he hne hfind
    rcases List.mem_cons.mp he with rfl | he2
    · show findEnemy e.id
        (splashAll ix iy D R f tid xs (splashStep ix iy D R f tid e s)).enemies = _
      rw [splashAll_find_other xs _ e.id (List.nodup_cons.mp hnd).1]
      exact splashStep_self ix iy D R f tid hne hfind
    · have hxe : e.id ≠ x.id := by
        intro hcontra
        have : e.id ∈ xs.map Enemy.id := List.mem_map_of_mem Enemy.id he2
        rw [hcontra] at this
        exact (List.nodup_cons.mp hnd).1 this
      show findEnemy e.id
        (splashAll ix iy D R f tid xs (splashStep ix iy D R f tid x s)).enemies = _
      exact ih _ (List.nodup_cons.mp hnd).2 he2 hne
        (by rw [splashStep_find_other hxe]; exact hfind)


end TD

namespace TD

theorem findEnemy_id {i : ℕ} {l : List Enemy} {y : Enemy}
    (h : findEnemy i l = some y) : y.id = i := by
  simpa using List.find?_some h

theorem findEnemy_mem {i : ℕ} {l : List Enemy} {y : Enemy}
    (h : findEnemy i l = some y) : y ∈ l := List.mem_of_find?_eq_some h

/-- A projectile whose weak target reference is stale leaves the session
state untouched (it is dropped or moves, but resolves no damage). -/
theorem stepProjectile_stale {p : Projectile} {s : GState}
    (hnone : findEnemy p.target s.enemies = none) : (stepProjectile p s).2 = s := by
  unfold stepProjectile
  rw [hnone]
  dsimp only
  rw [hnone]
  dsimp only
  split <;> rfl

/-- Any single projectile resolution conserves money plus outstanding
rewards and only ever removes enemies. -/
theorem stepProjectile_conserves (p : Projectile) (s : GState)
    (hnd : NodupIds s.enemies) : Conserves s (stepProjectile p s).2 := by
  unfold stepProjectile
  cases hp1 : findEnemy p.target s.enemies with
  | none =>
    simp only [hp1]
    split <;> exact conserves_refl s
  | some tgt =>
    simp only [hp1]
    split
    · -- impact resolution
      split
      · -- splash branch
        have hnd1 : NodupIds (setEnemyHealth tgt.id (tgt.health - p.damage) s.enemies) := by
          simpa [NodupIds, map_id_setEnemyHealth] using hnd
        have c1 : Conserves s
            { s with enemies := setEnemyHealth tgt.id (tgt.health - p.damage) s.enemies } :=
          setHealth_conserves _ _ _
        have c2 := splashAll_conserves tgt.x tgt.y p.damage (p.explosionRadius.getD 0)
          (p.falloff.getD 0) tgt.id
          (setEnemyHealth tgt.id (tgt.health - p.damage) s.enemies)
          { s with enemies := setEnemyHealth tgt.id (tgt.health - p.damage) s.enemies }
          hnd1 hnd1
          (fun x hx => ⟨x, findEnemy_of_mem_nodup hnd1 hx, rfl⟩)
        have c12 := conserves_trans c1 c2
        have hnd2 := c12.nodup hnd
        split
        · next tgt2 hfind2 =>
          split
          · exact conserves_trans c12
              (defeat_conserves tgt2 hnd2 (by rw [findEnemy_id hfind2]; exact hfind2) rfl)
          · exact c12
        · exact c12
      · -- standard branch
        have hnd1 : NodupIds (setEnemyHealth tgt.id (tgt.health - p.damage) s.enemies) := by
          simpa [NodupIds, map_id_setEnemyHealth] using hnd
        refine conserves_trans (setHealth_conserves tgt.id (tgt.health - p.damage) s) ?_
        split
        · refine defeat_conserves { tgt with health := tgt.health - p.damage } hnd1 ?_ rfl
          show findEnemy tgt.id (setEnemyHealth tgt.id (tgt.health - p.damage) s.enemies) = _
          have : findEnemy tgt.id s.enemies = some tgt := by
            rw [findEnemy_id hp1]; exact hp1
          rw [findEnemy_set_self, this]
          rfl
        · exact conserves_refl _
    · exact conserves_refl s

theorem updateProjectilesGo_conserves :
    ∀ (ps : List Projectile) (s : GState), NodupIds s.enemies →
    Conserves s (updateProjectilesGo ps s).2 := by
  intro ps
  induction ps with
  | nil => intro s _; exact conserves_refl s
  | cons p ps ih =>
    intro s hnd
    have crest := ih s hnd
    have cstep := stepProjectile_conserves p (updateProjectilesGo ps s).2 (crest.nodup hnd)
    show Conserves s (stepProjectile p (updateProjectilesGo ps s).2).2
    exact conserves_trans crest cstep

end TD

namespace TD

theorem mem_setEnemyHealth_of_ne {e : Enemy} {l : List Enemy} {i : ℕ} {hp : ℚ}
    (he : e ∈ l) (hne : e.id ≠ i) : e ∈ setEnemyHealth i hp l := by
  have himg : (fun x => if x.id == i then { x with health := hp } else x) e = e := by
    simp [hne]
  rw [setEnemyHealth]
  exact himg ▸ List.mem_map_of_mem _ he

/-- C5: when a `"bomber"` projectile resolves impact, the primary target
takes the full damage (and is defeated when that empties its health);
every other live enemy at exact distance `d` from the impact point takes
`max ⌊damage * (1 - d/R * falloff)⌋ 0` when `d ≤ R` — being removed when
that empties its health — and takes nothing beyond the radius. -/
theorem splashDamageFalloff (p : Projectile) (s : GState) (R f : ℚ) (tgt : Enemy)
    (htype : p.type = "bomber") (hR : p.explosionRadius = some R)
    (hf : p.falloff = some f) (hRpos : 0 < R)
    (hnd : NodupIds s.enemies) (hfind : findEnemy p.target s.enemies = some tgt)
    (himp : dist2 p.x p.y tgt.x tgt.y < 25) :
    (tgt.health - p.damage ≤ 0 →
      findEnemy p.target (stepProjectile p s).2.enemies = none) ∧
    (0 < tgt.health - p.damage →
      findEnemy p.target (stepProjectile p s).2.enemies
        = some { tgt with health := tgt.health - p.damage }) ∧
    (∀ e ∈ s.enemies, e.id ≠ tgt.id → ∀ d : ℚ, 0 ≤ d →
      dist2 tgt.x tgt.y e.x e.y = d ^ 2 → 0 < e.health →
      (d ≤ R →
        (0 < e.health - ((max ⌊p.damage * (1 - d / R * f)⌋ 0 : ℤ) : ℚ) →
          findEnemy e.id (stepProjectile p s).2.enemies
            = some { e with health :=
                e.health - ((max ⌊p.damage * (1 - d / R * f)⌋ 0 : ℤ) : ℚ) }) ∧
        (e.health - ((max ⌊p.damage * (1 - d / R * f)⌋ 0 : ℤ) : ℚ) ≤ 0 →
          findEnemy e.id (stepProjectile p s).2.enemies = none)) ∧
      (R < d → findEnemy e.id (stepProjectile p s).2.enemies = some e)) := by
  have hts : tgt.id = p.target := findEnemy_id hfind
  have hstate : (stepProjectile p s).2 =
      (let s1 : GState :=
        { s with enemies := setEnemyHealth tgt.id (tgt.health - p.damage) s.enemies }
      let s2 := splashAll tgt.x tgt.y p.damage R f tgt.id s1.enemies s1
      match findEnemy p.target s2.enemies with
      | some tgt2 => if tgt2.health ≤ 0 then defeatEnemy tgt2 s2 else s2
      | none => s2) := by
    simp only [stepProjectile, hfind]
    rw [if_pos himp, if_pos htype]
    simp only [hR, hf, Option.getD_some]
  rw [hstate]
  dsimp only
  rw [← hts]
  have hnd1 : NodupIds (setEnemyHealth tgt.id (tgt.health - p.damage) s.enemies) := by
    simpa [NodupIds, map_id_setEnemyHealth] using hnd
  have hfind2 : findEnemy tgt.id s.enemies = some tgt := by
    rw [hts]; exact hfind
  have hset : findEnemy tgt.id
      (setEnemyHealth tgt.id (tgt.health - p.damage) s.enemies)
      = some { tgt with health := tgt.health - p.damage } := by
    rw [findEnemy_set_self, hfind2]
    rfl
  have hsp_tgt : findEnemy tgt.id
      (splashAll tgt.x tgt.y p.damage R f tgt.id
        (setEnemyHealth tgt.id (tgt.health - p.damage) s.enemies)
        { s with enemies := setEnemyHealth tgt.id (tgt.health - p.damage) s.enemies }).enemies
      = some { tgt with health := tgt.health - p.damage } := by
    rw [splashAll_find_target]
    exact hset
  refine ⟨?_, ?_, ?_⟩
  · intro hdead
    rw [hsp_tgt]
    dsimp only
    rw [if_pos hdead]
    simp only [defeatEnemy]
    exact findEnemy_filter_self tgt.id _
  · intro halive
    rw [hsp_tgt]
    dsimp only
    rw [if_neg (by simpa using not_le.mpr halive)]
    exact hsp_tgt
  · intro e hmem hne d hd0 hdist hpos
    have hfe : findEnemy e.id s.enemies = some e := findEnemy_of_mem_nodup hnd hmem
    have hfe1 : findEnemy e.id
        (setEnemyHealth tgt.id (tgt.health - p.damage) s.enemies) = some e := by
      rw [findEnemy_set_other (fun h => hne h)]
      exact hfe
    have hmem1 : e ∈ setEnemyHealth tgt.id (tgt.health - p.damage) s.enemies :=
      mem_setEnemyHealth_of_ne hmem hne
    have hne2 : e.id ≠ tgt.id := hne
    have heff := splashAll_effect tgt.x tgt.y p.damage R f tgt.id
      (setEnemyHealth tgt.id (tgt.health - p.damage) s.enemies)
      { s with enemies := setEnemyHealth tgt.id (tgt.health - p.damage) s.enemies }
      hnd1 hmem1 hne2 hfe1
    -- the e entry is unchanged by the final primary defeat check
    have hframe : ∀ s2 : GState,
        findEnemy e.id
          (match findEnemy tgt.id s2.enemies with
            | some tgt2 => if tgt2.health ≤ 0 then defeatEnemy tgt2 s2 else s2
            | none => s2).enemies = findEnemy e.id s2.enemies := by
      intro s2
      cases hm : findEnemy tgt.id s2.enemies with
      | none => rfl
      | some tgt2 =>
        dsimp only
        split
        · simp only [defeatEnemy]
          rw [findEnemy_filter_other]
          rw [findEnemy_id hm]
          exact hne
        · rfl
    rw [hframe]
    rw [heff]
    have hd2e : dist2 tgt.x tgt.y e.x e.y = d ^ 2 := hdist
    have hsqrt : Rat.sqrt (dist2 tgt.x tgt.y e.x e.y) = d := by
      rw [hd2e]; exact ratSqrt_sq hd0
    have hrad : dist2 tgt.x tgt.y e.x e.y ≤ R ^ 2 ↔ d ≤ R := by
      rw [hd2e]
      constructor <;> intro h <;> nlinarith
    refine ⟨?_, ?_⟩
    · intro hdR
      rw [if_pos (hrad.mpr hdR), hsqrt]
      by_cases hApos : 0 < ⌊p.damage * (1 - d / R * f)⌋
      · rw [if_pos hApos]
        have hmax : max ⌊p.damage * (1 - d / R * f)⌋ 0 = ⌊p.damage * (1 - d / R * f)⌋ :=
          max_eq_left (le_of_lt hApos)
        constructor
        · intro halive
          rw [hmax] at halive
          rw [if_neg (by simpa using not_le.mpr halive)]
          rw [hmax]
        · intro hdead
          rw [hmax] at hdead
          rw [if_pos hdead]
      · rw [if_neg hApos]
        have hmax : max ⌊p.damage * (1 - d / R * f)⌋ 0 = 0 :=
          max_eq_right (le_of_not_lt hApos)
        constructor
        · intro _
          rw [hmax]
          norm_num
        · intro hdead
          rw [hmax] at hdead
          norm_num at hdead
          exact absurd hpos (not_lt.mpr hdead)
    · intro hRd
      rw [if_neg (by rw [hrad]; exact not_le.mpr hRd)]

end TD

namespace TD

/-- C4: one projectile-resolution pass conserves money plus outstanding
rewards (each defeated enemy pays out exactly once) and only removes
enemies from the live list; and a projectile whose target is already
removed resolves no damage and grants no reward (the state is untouched).
-/
theorem defeatProcessingIdempotent :
    (∀ s : GState, NodupIds s.enemies →
      (updateProjectiles s).money + sumRewards (updateProjectiles s).enemies
        = s.money + sumRewards s.enemies ∧
      ((updateProjectiles s).enemies.map Enemy.id).Sublist (s.enemies.map Enemy.id)) ∧
    (∀ (p : Projectile) (s : GState), findEnemy p.target s.enemies = none →
      (stepProjectile p s).2 = s) := by
  constructor
  · intro s hnd
    have h := updateProjectilesGo_conserves s.projectiles s hnd
    constructor
    · simpa [updateProjectiles] using h.1
    · simpa [updateProjectiles] using h.2
  · intro p s h
    exact stepProjectile_stale h

end TD

namespace TD

/-- Witness for C4: the specification's own scenario.  Three 10-damage
shots leave a 40-health enemy at 10 health, live, no reward; in a later
pass a fourth shot and a simultaneous splash shot defeat it and pay its
reward exactly once (money rises by exactly 12); a projectile aimed at an
already-removed enemy changes nothing. -/
theorem defeatProcessingIdempotentWitness :
    ((updateProjectiles cexPassState).money
        + sumRewards (updateProjectiles cexPassState).enemies
      = cexPassState.money + sumRewards cexPassState.enemies) ∧
    (updateProjectiles cexTripleState).enemies.map Enemy.health = [10] ∧
    (updateProjectiles cexTripleState).money = 100 ∧
    (updateProjectiles cexPassState).money = 112 ∧
    (updateProjectiles cexPassState).enemies = [] ∧
    (stepProjectile (standardShot 5 0 0 50 50 10) initGameState).2 = initGameState := by
  have hA : stepProjectile (standardShot 0 396 300 400 300 10) cexTripleState
      = (none, { cexTripleState with
                   enemies := [{ enemyAt 0 400 300 40 12 with health := 30 }] }) := by
    norm_num [stepProjectile, cexTripleState, standardShot, enemyAt, initGameState,
      dist2, findEnemy, setEnemyHealth]
    simp
  have hB : stepProjectile (standardShot 0 397 300 400 300 10)
      { cexTripleState with enemies := [{ enemyAt 0 400 300 40 12 with health := 30 }] }
      = (none, { cexTripleState with
                   enemies := [{ enemyAt 0 400 300 40 12 with health := 20 }] }) := by
    norm_num [stepProjectile, cexTripleState, standardShot, enemyAt, initGameState,
      dist2, findEnemy, setEnemyHealth]
    simp
  have hC : stepProjectile (standardShot 0 398 300 400 300 10)
      { cexTripleState with enemies := [{ enemyAt 0 400 300 40 12 with health := 20 }] }
      = (none, { cexTripleState with
                   enemies := [{ enemyAt 0 400 300 40 12 with health := 10 }] }) := by
    norm_num [stepProjectile, cexTripleState, standardShot, enemyAt, initGameState,
      dist2, findEnemy, setEnemyHealth]
    simp
  have hprojT : cexTripleState.projectiles
      = [standardShot 0 398 300 400 300 10, standardShot 0 397 300 400 300 10,
         standardShot 0 396 300 400 300 10] := rfl
  have hTriple : updateProjectiles cexTripleState
      = { cexTripleState with
            enemies := [{ enemyAt 0 400 300 40 12 with health := 10 }],
            projectiles := [] } := by
    simp only [updateProjectiles]
    conv_lhs => rw [hprojT]
    simp only [updateProjectilesGo, hA, hB, hC]
  have hP1 : stepProjectile (bomberShot 0 402 300 400 300 50 60 (1/2)) cexPassState
      = (none, { cexPassState with money := 112, enemies := [] }) := by
    norm_num [stepProjectile, cexPassState, bomberShot, standardShot, enemyAt,
      initGameState, dist2, findEnemy, setEnemyHealth, splashAll, splashStep,
      defeatEnemy]
  have hP2 : stepProjectile (standardShot 0 398 300 400 300 10)
      { cexPassState with money := 112, enemies := [] }
      = (none, { cexPassState with money := 112, enemies := [] }) := by
    norm_num [stepProjectile, cexPassState, standardShot, enemyAt, initGameState,
      dist2, findEnemy, setEnemyHealth]
  have hprojP : cexPassState.projectiles
      = [standardShot 0 398 300 400 300 10,
         bomberShot 0 402 300 400 300 50 60 (1/2)] := rfl
  have hPass : updateProjectiles cexPassState
      = { cexPassState with money := 112, enemies := [], projectiles := [] } := by
    simp only [updateProjectiles]
    conv_lhs => rw [hprojP]
    simp only [updateProjectilesGo, hP1, hP2]
  refine ⟨(defeatProcessingIdempotent.1 cexPassState ?_).1, ?_, ?_, ?_, ?_,
    defeatProcessingIdempotent.2 (standardShot 5 0 0 50 50 10) initGameState rfl⟩
  · simp [NodupIds, cexPassState, initGameState, enemyAt]
  · rw [hTriple]; simp
  · rw [hTriple]; simp [cexTripleState, initGameState]
  · rw [hPass]
  · rw [hPass]

end TD

namespace TD

/-- Witness for C5: radius 60, falloff 0.5, damage 50 — the primary target
takes the full 50; the enemy 30 away takes 37 (left at 63), the enemy at
exactly 60 takes 25 (left at 75), and the enemy 100 away takes 0. -/
theorem splashDamageFalloffWitness :
    findEnemy 0 (stepProjectile (bomberShot 0 398 300 400 300 50 60 (1/2))
        cexSplashState).2.enemies
      = some { enemyAt 0 400 300 100 10 with health := 50 } ∧
    findEnemy 1 (stepProjectile (bomberShot 0 398 300 400 300 50 60 (1/2))
        cexSplashState).2.enemies
      = some { enemyAt 1 430 300 100 10 with health := 63 } ∧
    findEnemy 2 (stepProjectile (bomberShot 0 398 300 400 300 50 60 (1/2))
        cexSplashState).2.enemies
      = some { enemyAt 2 460 300 100 10 with health := 75 } ∧
    findEnemy 3 (stepProjectile (bomberShot 0 398 300 400 300 50 60 (1/2))
        cexSplashState).2.enemies
      = some (enemyAt 3 500 300 100 10) := by
  have h := splashDamageFalloff (bomberShot 0 398 300 400 300 50 60 (1/2))
    cexSplashState 60 (1/2) (enemyAt 0 400 300 100 10) rfl rfl rfl (by norm_num)
    (by simp [NodupIds, cexSplashState, initGameState, enemyAt])
    (by norm_num [findEnemy, cexSplashState, initGameState, enemyAt, bomberShot])
    (by norm_num [dist2, bomberShot, enemyAt])
  refine ⟨?_, ?_, ?_, ?_⟩
  · have h0 := h.2.1 (by norm_num [enemyAt, bomberShot])
    norm_num [enemyAt, bomberShot] at h0 ⊢
    exact h0
  · have h1 := ((h.2.2 (enemyAt 1 430 300 100 10)
      (by simp [cexSplashState, initGameState]) (by simp [enemyAt]) 30
      (by norm_num) (by norm_num [dist2, enemyAt]) (by norm_num [enemyAt])).1
      (by norm_num)).1 (by norm_num [enemyAt, bomberShot])
    norm_num [enemyAt, bomberShot] at h1 ⊢
    exact h1
  · have h2 := ((h.2.2 (enemyAt 2 460 300 100 10)
      (by simp [cexSplashState, initGameState]) (by simp [enemyAt]) 60
      (by norm_num) (by norm_num [dist2, enemyAt]) (by norm_num [enemyAt])).1
      (by norm_num)).1 (by norm_num [enemyAt, bomberShot])
    norm_num [enemyAt, bomberShot] at h2 ⊢
    exact h2
  · have h3 := (h.2.2 (enemyAt 3 500 300 100 10)
      (by simp [cexSplashState, initGameState]) (by simp [enemyAt]) 100
      (by norm_num) (by norm_num [dist2, enemyAt]) (by norm_num [enemyAt])).2
      (by norm_num)
    norm_num [enemyAt, bomberShot] at h3 ⊢
    exact h3

end TD

namespace TD

theorem updateEnemiesCore_breach_single (e : Enemy) (he : stepEnemy e = .breach) :
    updateEnemiesCore [e] = ([], true) := by
  simp [updateEnemiesCore, he]

theorem updateEnemies_breach {s : GState}
    (h : updateEnemiesCore s.enemies = ([], true)) :
    updateEnemies s
      = { s with enemies := [], lives := s.lives - 1, isPlaying := false } := by
  simp [updateEnemies, h, gameOver]

theorem checkWaveCompletion_eq_self {s : GState}
    (h : ¬(s.waveCompleted = false ∧ s.enemies = [] ∧ s.enemySpawnInterval = none ∧
      s.waveStarted = true)) : checkWaveCompletion s = s := by
  rw [checkWaveCompletion, if_neg h]

theorem updateTowers_nil {s : GState} (now : ℚ) (rands : List ℚ)
    (h : s.towers = []) : updateTowers now rands s = s := by
  cases s
  simp only at h
  subst h
  simp [updateTowers, updateTowersGo]

theorem updateProjectiles_nil {s : GState} (h : s.projectiles = []) :
    updateProjectiles s = s := by
  cases s
  simp only at h
  subst h
  simp [updateProjectiles, updateProjectilesGo]

theorem tick_run {s : GState} (now : ℚ) (rands : List ℚ)
    (h1 : s.gameScreen = "game") (h2 : s.isPlaying = true) :
    tick now rands s = update now rands s := by
  simp [tick, h1, h2]

theorem tick_skip {s : GState} (now : ℚ) (rands : List ℚ)
    (h : s.isPlaying = false) : tick now rands s = s := by
  simp [tick, h]

/-- C7 (failing-input evaluation): resetting during the wave-completion
countdown leaves the countdown interval pending (only the spawn-interval
and `waveTimeout` handles are cleared), and when the stale callback next
fires it mutates the freshly reset session: the wave counter jumps to 2
and a new spawn schedule starts. -/
theorem resetLeavesCountdownPending :
    (resetGame cexResetState).timers = [(5, .countdown 1)] ∧
    (resetGame cexResetState).wave = 1 ∧
    (resetGame cexResetState).money = 75 ∧
    (fireTimer 5 0 (resetGame cexResetState)).wave = 2 ∧
    (fireTimer 5 0 (resetGame cexResetState)).enemySpawnInterval = some 6 ∧
    (fireTimer 5 0 (resetGame cexResetState)).timers = [(6, .spawn 0 9)] := by
  have hreset : resetGame cexResetState
      = { cexResetState with
          money := 75, waveStarted := false, waveCompleted := false } := by
    norm_num [resetGame, cexResetState, initGameState]
  rw [hreset]
  norm_num [fireTimer, cexResetState, initGameState, clearTimer, startWave, setTimer,
    calculateWaveDifficulty]
  omega

/-- C3 (failing-input evaluation): a breach decrements lives by exactly 1,
removes the breaching enemy with no reward, and ends the game (later ticks
are no-ops) — but the still-pending spawn interval keeps firing afterwards
and appends a fresh enemy to the terminal session's live list. -/
theorem breachStopsTicksButSpawnsContinue :
    (tick 0 [] cexBreachState).lives = 0 ∧
    (tick 0 [] cexBreachState).enemies = [] ∧
    (tick 0 [] cexBreachState).money = cexBreachState.money ∧
    (tick 0 [] cexBreachState).isPlaying = false ∧
    tick 5000 [] (tick 0 [] cexBreachState) = tick 0 [] cexBreachState ∧
    (fireTimer 0 (1/2) (tick 0 [] cexBreachState)).enemies.length = 1 := by
  have hsqrt : Rat.sqrt (40000 : ℚ) = 200 := by
    rw [show (40000 : ℚ) = 200 * 200 by norm_num, Rat.sqrt_eq]
    norm_num
  have hstep : stepEnemy { enemyAt 7 600 400 40 10 with pathIndex := 6, progress := 199 }
      = .breach := by
    norm_num [stepEnemy, path, enemyAt, hsqrt]
  have hcore : updateEnemiesCore cexBreachState.enemies = ([], true) :=
    updateEnemiesCore_breach_single _ hstep
  have hT : tick 0 [] cexBreachState
      = { cexBreachState with
          enemies := [], lives := cexBreachState.lives - 1, isPlaying := false } := by
    rw [tick_run 0 [] rfl rfl, update, checkWaveCompletion_eq_self
      (by simp [cexBreachState, initGameState]), updateEnemies_breach hcore,
      updateTowers_nil 0 [] rfl, updateProjectiles_nil rfl]
  rw [hT]
  refine ⟨by norm_num [cexBreachState, initGameState], by simp, by simp, by simp,
    tick_skip 5000 [] rfl, ?_⟩
  norm_num [fireTimer, cexBreachState, initGameState, spawnEnemy,
    selectEnemyTypeForWave, enemyTypes, path, clearTimer]

end TD

namespace TD

/- ### C6: the wave-completion guard and the preparation-phase invariant -/

theorem pw_refl (s : GState) : PW s s := ⟨rfl, rfl⟩

theorem pw_trans {a b c : GState} (h1 : PW a b) (h2 : PW b c) : PW a c :=
  ⟨h2.1.trans h1.1, h2.2.trans h1.2⟩

theorem pw_checkWaveCompletion (s : GState) : PW s (checkWaveCompletion s) := by
  unfold checkWaveCompletion
  split
  · exact ⟨rfl, rfl⟩
  · exact pw_refl s

theorem pw_startWave (s : GState) : PW s (startWave s) := by
  unfold startWave
  cases hE : s.enemySpawnInterval <;> simp [hE, setTimer, PW]

theorem pw_spawnEnemy (k : String) (s : GState) : PW s (spawnEnemy k s) := by
  unfold spawnEnemy
  split
  · exact pw_refl s
  · exact ⟨rfl, rfl⟩

theorem pw_updateEnemies (s : GState) : PW s (updateEnemies s) := by
  unfold updateEnemies
  dsimp only
  split
  · exact ⟨rfl, rfl⟩
  · exact ⟨rfl, rfl⟩

theorem pw_stepTower (now : ℚ) (t : Tower) (rands : List ℚ) (s : GState) :
    PW s (stepTower now t rands s).2.2 := by
  unfold stepTower
  split
  · exact pw_refl s
  · cases hacq : acquireTarget t s.enemies with
    | none => simp only [hacq]; exact pw_refl s
    | some e =>
      simp only [hacq]
      dsimp only
      split
      · dsimp only
        repeat' split
        all_goals exact ⟨rfl, rfl⟩
      · split
        · exact ⟨rfl, rfl⟩
        · exact ⟨rfl, rfl⟩

theorem pw_updateTowersGo (now : ℚ) (ts : List Tower) :
    ∀ (rands : List ℚ) (s : GState), PW s (updateTowersGo now ts rands s).2 := by
  induction ts with
  | nil => intro rands s; exact pw_refl s
  | cons t ts ih =>
    intro rands s
    simp only [updateTowersGo]
    exact pw_trans (pw_stepTower now t rands s) (ih _ _)

theorem pw_updateTowers (now : ℚ) (rands : List ℚ) (s : GState) :
    PW s (updateTowers now rands s) := by
  have h := pw_updateTowersGo now s.towers rands s
  exact ⟨h.1, h.2⟩

theorem pw_splashStep (ix iy D R f : ℚ) (tid : ℕ) (e : Enemy) (s : GState) :
    PW s (splashStep ix iy D R f tid e s) := by
  simp only [splashStep]
  repeat' split
  all_goals exact pw_refl s

theorem pw_splashAll (ix iy D R f : ℚ) (tid : ℕ) (l : List Enemy) :
    ∀ s : GState, PW s (splashAll ix iy D R f tid l s) := by
  induction l with
  | nil => intro s; exact pw_refl s
  | cons e es ih =>
    intro s
    exact pw_trans (pw_splashStep ix iy D R f tid e s) (ih _)

theorem pw_stepProjectile (p : Projectile) (s : GState) :
    PW s (stepProjectile p s).2 := by
  unfold stepProjectile
  cases hp1 : findEnemy p.target s.enemies with
  | none =>
    simp only [hp1]
    split <;> exact pw_refl s
  | some tgt =>
    simp only [hp1]
    split
    · split
      · have h2 : PW s (splashAll tgt.x tgt.y p.damage (p.explosionRadius.getD 0)
            (p.falloff.getD 0) tgt.id
            (setEnemyHealth tgt.id (tgt.health - p.damage) s.enemies)
            { s with enemies := setEnemyHealth tgt.id (tgt.health - p.damage) s.enemies }) :=
          pw_trans ⟨rfl, rfl⟩ (pw_splashAll _ _ _ _ _ _ _ _)
        split
        · split
          · exact pw_trans h2 ⟨rfl, rfl⟩
          · exact h2
        · exact h2
      · split
        · exact ⟨rfl, rfl⟩
        · exact ⟨rfl, rfl⟩
    · exact pw_refl s

theorem pw_updateProjectilesGo (ps : List Projectile) :
    ∀ s : GState, PW s (updateProjectilesGo ps s).2 := by
  induction ps with
  | nil => intro s; exact pw_refl s
  | cons p ps ih =>
    intro s
    show PW s (stepProjectile p (updateProjectilesGo ps s).2).2
    exact pw_trans (ih s) (pw_stepProjectile p _)

theorem pw_updateProjectiles (s : GState) : PW s (updateProjectiles s) := by
  have h := pw_updateProjectilesGo s.projectiles s
  exact ⟨h.1, h.2⟩

theorem pw_update (now : ℚ) (rands : List ℚ) (s : GState) : PW s (update now rands s) := by
  unfold update
  exact pw_trans (pw_trans (pw_trans (pw_checkWaveCompletion s)
    (pw_updateEnemies _)) (pw_updateTowers now rands _)) (pw_updateProjectiles _)

theorem pw_tick (now : ℚ) (rands : List ℚ) (s : GState) : PW s (tick now rands s) := by
  unfold tick
  split
  · exact pw_update now rands s
  · exact pw_refl s

theorem pw_selectTower (k : String) (s : GState) : PW s (selectTower k s) := by
  unfold selectTower
  split
  · exact pw_refl s
  · split
    · exact ⟨rfl, rfl⟩
    · exact pw_refl s

theorem pw_handleCanvasClick (x y : ℚ) (s : GState) : PW s (handleCanvasClick x y s) := by
  unfold handleCanvasClick
  split
  · split
    · exact pw_refl s
    · dsimp only
      split
      · unfold placeTower
        split
        · exact ⟨rfl, rfl⟩
        · exact ⟨rfl, rfl⟩
      · exact pw_refl s
  · exact pw_refl s

theorem prepInv_of_pw {s s2 : GState} (h : PW s s2) (hi : PrepInv s) : PrepInv s2 := by
  intro hp
  rw [h.2]
  exact hi (h.1.symm.trans hp)

theorem prepInv_startWave_of {s : GState} (hs : PrepInv s) : PrepInv (startWave s) :=
  prepInv_of_pw (pw_startWave s) hs

theorem prepInv_fireTimer (h : ℕ) (rand : ℚ) {s : GState} (hi : PrepInv s) :
    PrepInv (fireTimer h rand s) := by
  unfold fireTimer
  split
  · exact hi
  · split
    · -- preparation tick
      dsimp only
      split
      · apply prepInv_startWave_of
        intro hx
        simp at hx
      · intro hp
        exact hi hp
    · -- spawn tick
      dsimp only
      split
      · cases hE : s.enemySpawnInterval <;> simp only [hE] <;> intro hp <;> exact hi hp
      · have hpw := pw_spawnEnemy (selectEnemyTypeForWave s.wave rand) s
        exact prepInv_of_pw ⟨hpw.1, hpw.2⟩ hi
    · -- bonus payment
      intro hp
      exact hi hp
    · -- next-wave countdown
      dsimp only
      split
      · apply prepInv_startWave_of
        intro hp
        exact hi hp
      · intro hp
        exact hi hp

theorem prepInv_startGame (s : GState) : PrepInv (startGame s) := by
  intro _
  rfl

theorem prepInv_resetGame (s : GState) : PrepInv (resetGame s) := by
  intro _
  cases hE : s.enemySpawnInterval <;> cases hW : s.waveTimeout <;>
    simp [resetGame, hE, hW]

theorem prepInv_step {s s2 : GState} (hstep : Step s s2) (hi : PrepInv s) : PrepInv s2 := by
  cases hstep with
  | tick now rands s => exact prepInv_of_pw (pw_tick now rands s) hi
  | timer h rand s => exact prepInv_fireTimer h rand hi
  | select k s => exact prepInv_of_pw (pw_selectTower k s) hi
  | click x y s => exact prepInv_of_pw (pw_handleCanvasClick x y s) hi
  | start s => exact prepInv_startGame s
  | reset s => exact prepInv_resetGame s

theorem prepInv_reachable {s : GState} (h : Reachable s) : PrepInv s := by
  induction h with
  | refl => intro _; rfl
  | tail hr hstep ih => exact prepInv_step hstep ih

/-- C6: the wave-completion transition fires exactly on the guard — no
already-fired completion, zero live enemies, no pending spawn schedule,
and `waveStarted = true` — marking completion and scheduling the bonus
timeout and the countdown interval; when the guard fails the state is
untouched, and in every reachable state the preparation phase implies
`waveStarted = false`, so completion can never fire during preparation. -/
theorem waveCompletionGuard :
    (∀ s : GState,
        ¬(s.waveCompleted = false ∧ s.enemies = [] ∧ s.enemySpawnInterval = none ∧
            s.waveStarted = true) →
        checkWaveCompletion s = s) ∧
    (∀ s : GState,
        s.waveCompleted = false → s.enemies = [] → s.enemySpawnInterval = none →
        s.waveStarted = true →
        (checkWaveCompletion s).waveCompleted = true ∧
        (checkWaveCompletion s).timers =
          s.timers ++ [(s.nextTimer, TimerKind.bonus (20 + 5 * (s.wave : ℤ))),
                       (s.nextTimer + 1, TimerKind.countdown 8)]) ∧
    (∀ s : GState, Reachable s → s.preparationPhase = true →
        checkWaveCompletion s = s) := by
  refine ⟨?_, ?_, ?_⟩
  · intro s hn
    unfold checkWaveCompletion
    rw [if_neg hn]
  · intro s h1 h2 h3 h4
    unfold checkWaveCompletion
    rw [if_pos ⟨h1, h2, h3, h4⟩]
    have hfloor : (⌊(20 : ℚ) + (s.wave : ℚ) * 5⌋ : ℤ) = 20 + 5 * (s.wave : ℤ) := by
      have hc : ((20 : ℚ) + (s.wave : ℚ) * 5) = ((20 + 5 * (s.wave : ℤ) : ℤ) : ℚ) := by
        push_cast
        ring
      rw [hc, Int.floor_intCast]
    constructor
    · rfl
    · simp [setTimer, hfloor]
  · intro s hr hprep
    have hws : s.waveStarted = false := prepInv_reachable hr hprep
    unfold checkWaveCompletion
    rw [if_neg (by simp [hws])]

end TD

namespace TD

theorem waveCompletionGuardWitness :
    ((checkWaveCompletion wcState).waveCompleted = true ∧
     (checkWaveCompletion wcState).timers =
       wcState.timers ++ [(wcState.nextTimer, TimerKind.bonus 25),
                          (wcState.nextTimer + 1, TimerKind.countdown 8)]) ∧
    checkWaveCompletion (startGame initGameState) = startGame initGameState := by
  constructor
  · have h := waveCompletionGuard.2.1 wcState rfl rfl rfl rfl
    have h25 : (20 + 5 * (wcState.wave : ℤ) : ℤ) = 25 := by
      norm_num [wcState, initGameState]
    rw [h25] at h
    exact h
  · exact waveCompletionGuard.2.2 (startGame initGameState)
      (Relation.ReflTransGen.single (Step.start initGameState)) rfl

end TD

namespace TD

/- ### C8: placement validation -/

theorem mkTower_cost (x y : ℚ) (k : String) (spec : TowerSpec) :
    (mkTower x y k spec).cost = spec.cost := by
  cases hsp : spec.special with
  | none => simp only [mkTower, hsp]
  | some sp => cases sp <;> simp only [mkTower, hsp]

/-- A sampling loop over points that all stay at least 30 units away never
flags the position. -/
theorem segmentSampleHit_false (ax ay dx dy : ℚ) (steps : ℕ) (x y : ℚ)
    (h : ∀ j : ℕ, ¬ dist2 (ax + dx * j / steps) (ay + dy * j / steps) x y < 900) :
    ∀ n : ℕ, segmentSampleHit ax ay dx dy steps x y n = false := by
  intro n
  induction n with
  | zero =>
    have h0 := h 0
    push_cast at h0
    simp only [segmentSampleHit, if_neg h0]
  | succ j ih =>
    have hj := h (j + 1)
    push_cast at hj
    simp only [segmentSampleHit, if_neg hj, ih]

/-- C8: a click with the pending kind locked or unaffordable, or on a
position failing the validity check, leaves money and the tower list
unchanged; a click on a valid position deducts exactly the spec cost,
appends the built tower and clears the pending selection; and the
validity check holds exactly when the position is in bounds, clear of
every placed tower and clear of every sampled path point. -/
theorem placementValidation :
    (∀ (s : GState) (kind : String) (spec : TowerSpec) (x y : ℚ),
        s.selectedTower = none → towerTypes kind = some spec →
        ¬(s.wave ≥ spec.unlockWave ∧ s.money ≥ (spec.cost : ℤ)) →
        (handleCanvasClick x y (selectTower kind s)).money = s.money ∧
        (handleCanvasClick x y (selectTower kind s)).towers = s.towers) ∧
    (∀ (s : GState) (x y : ℚ),
        isPositionValid s.towers (((⌊x / gridSize⌋ : ℤ) : ℚ) * gridSize)
          (((⌊y / gridSize⌋ : ℤ) : ℚ) * gridSize) = false →
        (handleCanvasClick x y s).money = s.money ∧
        (handleCanvasClick x y s).towers = s.towers) ∧
    (∀ (s : GState) (kind : String) (spec : TowerSpec) (x y : ℚ),
        s.isPlaying = true → s.selectedTower = some kind → towerTypes kind = some spec →
        isPositionValid s.towers (((⌊x / gridSize⌋ : ℤ) : ℚ) * gridSize)
          (((⌊y / gridSize⌋ : ℤ) : ℚ) * gridSize) = true →
        (handleCanvasClick x y s).money = s.money - (spec.cost : ℤ) ∧
        (handleCanvasClick x y s).towers =
          s.towers ++ [mkTower (((⌊x / gridSize⌋ : ℤ) : ℚ) * gridSize)
            (((⌊y / gridSize⌋ : ℤ) : ℚ) * gridSize) kind spec] ∧
        (handleCanvasClick x y s).selectedTower = none) ∧
    (∀ (towers : List Tower) (x y : ℚ),
        isPositionValid towers x y = true ↔
          outOfBounds x y = false ∧
          towers.any (fun t => towerTooClose t x y) = false ∧
          pathSegments.any (fun seg => segmentBlocks seg.1 seg.2 x y) = false) := by
  refine ⟨?_, ?_, ?_, ?_⟩
  · intro s kind spec x y hsel hspec hlock
    have hsel2 : selectTower kind s = s := by
      unfold selectTower
      simp only [hspec]
      rw [if_neg hlock]
    rw [hsel2]
    unfold handleCanvasClick
    split
    · simp [hsel]
    · exact ⟨rfl, rfl⟩
  · intro s x y hinvalid
    unfold handleCanvasClick
    split
    · cases hsel : s.selectedTower with
      | none => simp [hsel]
      | some kind =>
        simp only [hsel]
        rw [if_neg (by simp [hinvalid])]
        exact ⟨rfl, rfl⟩
    · exact ⟨rfl, rfl⟩
  · intro s kind spec x y hplay hsel hspec hvalid
    unfold handleCanvasClick
    rw [if_pos hplay]
    simp only [hsel]
    rw [if_pos hvalid]
    unfold placeTower
    simp only [hspec]
    simp [mkTower_cost]
  · intro towers x y
    cases h1 : outOfBounds x y <;>
      cases h2 : towers.any (fun t => towerTooClose t x y) <;>
      cases h3 : pathSegments.any (fun seg => segmentBlocks seg.1 seg.2 x y) <;>
      simp [isPositionValid, h1, h2, h3]

end TD

namespace TD

theorem placementValidationWitness :
    (handleCanvasClick 45 530 pvState).money = pvState.money - 25 ∧
    (handleCanvasClick 45 530 pvState).towers =
      pvState.towers ++ [mkTower 40 520 "basic" basicSpec] ∧
    (handleCanvasClick 45 530 pvState).selectedTower = none := by
  have hsq200 : Rat.sqrt ((200 : ℚ) * 200 + 0 * 0) = 200 := by
    rw [show ((200 : ℚ) * 200 + 0 * 0) = 200 ^ 2 by norm_num]
    exact ratSqrt_sq (by norm_num)
  have hb1 : segmentBlocks ((0 : ℚ), (120 : ℚ)) ((200 : ℚ), (120 : ℚ)) 40 520 = false := by
    unfold segmentBlocks
    dsimp only
    rw [show ((200 : ℚ) - 0) * (200 - 0) + (120 - 120) * (120 - 120) = 200 ^ 2 by norm_num,
        ratSqrt_sq (by norm_num : (0 : ℚ) ≤ 200),
        show ((⌈(200 : ℚ) / 10⌉ : ℤ)).toNat = 20 by norm_num; omega]
    refine segmentSampleHit_false _ _ _ _ _ _ _ (fun j hlt => ?_) 20
    rw [dist2] at hlt
    push_cast at hlt
    nlinarith [sq_nonneg ((40 : ℚ) - 10 * (j : ℚ))]
  have hb2 : segmentBlocks ((200 : ℚ), (120 : ℚ)) ((200 : ℚ), (280 : ℚ)) 40 520 = false := by
    unfold segmentBlocks
    dsimp only
    rw [show ((200 : ℚ) - 200) * (200 - 200) + (280 - 120) * (280 - 120) = 160 ^ 2 by norm_num,
        ratSqrt_sq (by norm_num : (0 : ℚ) ≤ 160),
        show ((⌈(160 : ℚ) / 10⌉ : ℤ)).toNat = 16 by norm_num; omega]
    refine segmentSampleHit_false _ _ _ _ _ _ _ (fun j hlt => ?_) 16
    rw [dist2] at hlt
    push_cast at hlt
    nlinarith [sq_nonneg ((400 : ℚ) - 10 * (j : ℚ))]
  have hb3 : segmentBlocks ((200 : ℚ), (280 : ℚ)) ((400 : ℚ), (280 : ℚ)) 40 520 = false := by
    unfold segmentBlocks
    dsimp only
    rw [show ((400 : ℚ) - 200) * (400 - 200) + (280 - 280) * (280 - 280) = 200 ^ 2 by norm_num,
        ratSqrt_sq (by norm_num : (0 : ℚ) ≤ 200),
        show ((⌈(200 : ℚ) / 10⌉ : ℤ)).toNat = 20 by norm_num; omega]
    refine segmentSampleHit_false _ _ _ _ _ _ _ (fun j hlt => ?_) 20
    rw [dist2] at hlt
    push_cast at hlt
    nlinarith [sq_nonneg ((-160 : ℚ) - 10 * (j : ℚ))]
  have hb4 : segmentBlocks ((400 : ℚ), (280 : ℚ)) ((400 : ℚ), (120 : ℚ)) 40 520 = false := by
    unfold segmentBlocks
    dsimp only
    rw [show ((400 : ℚ) - 400) * (400 - 400) + (120 - 280) * (120 - 280) = 160 ^ 2 by norm_num,
        ratSqrt_sq (by norm_num : (0 : ℚ) ≤ 160),
        show ((⌈(160 : ℚ) / 10⌉ : ℤ)).toNat = 16 by norm_num; omega]
    refine segmentSampleHit_false _ _ _ _ _ _ _ (fun j hlt => ?_) 16
    rw [dist2] at hlt
    push_cast at hlt
    nlinarith [sq_nonneg ((240 : ℚ) + 10 * (j : ℚ))]
  have hb5 : segmentBlocks ((400 : ℚ), (120 : ℚ)) ((600 : ℚ), (120 : ℚ)) 40 520 = false := by
    unfold segmentBlocks
    dsimp only
    rw [show ((600 : ℚ) - 400) * (600 - 400) + (120 - 120) * (120 - 120) = 200 ^ 2 by norm_num,
        ratSqrt_sq (by norm_num : (0 : ℚ) ≤ 200),
        show ((⌈(200 : ℚ) / 10⌉ : ℤ)).toNat = 20 by norm_num; omega]
    refine segmentSampleHit_false _ _ _ _ _ _ _ (fun j hlt => ?_) 20
    rw [dist2] at hlt
    push_cast at hlt
    nlinarith [sq_nonneg ((-360 : ℚ) - 10 * (j : ℚ))]
  have hb6 : segmentBlocks ((600 : ℚ), (120 : ℚ)) ((600 : ℚ), (400 : ℚ)) 40 520 = false := by
    unfold segmentBlocks
    dsimp only
    rw [show ((600 : ℚ) - 600) * (600 - 600) + (400 - 120) * (400 - 120) = 280 ^ 2 by norm_num,
        ratSqrt_sq (by norm_num : (0 : ℚ) ≤ 280),
        show ((⌈(280 : ℚ) / 10⌉ : ℤ)).toNat = 28 by norm_num; omega]
    refine segmentSampleHit_false _ _ _ _ _ _ _ (fun j hlt => ?_) 28
    rw [dist2] at hlt
    push_cast at hlt
    nlinarith [sq_nonneg ((400 : ℚ) - 10 * (j : ℚ))]
  have hb7 : segmentBlocks ((600 : ℚ), (400 : ℚ)) ((800 : ℚ), (400 : ℚ)) 40 520 = false := by
    unfold segmentBlocks
    dsimp only
    rw [show ((800 : ℚ) - 600) * (800 - 600) + (400 - 400) * (400 - 400) = 200 ^ 2 by norm_num,
        ratSqrt_sq (by norm_num : (0 : ℚ) ≤ 200),
        show ((⌈(200 : ℚ) / 10⌉ : ℤ)).toNat = 20 by norm_num; omega]
    refine segmentSampleHit_false _ _ _ _ _ _ _ (fun j hlt => ?_) 20
    rw [dist2] at hlt
    push_cast at hlt
    nlinarith [sq_nonneg ((-560 : ℚ) - 10 * (j : ℚ))]
  have hvalid0 : isPositionValid [] (40 : ℚ) (520 : ℚ) = true := by
    have hoob : outOfBounds (40 : ℚ) 520 = false := by
      norm_num [outOfBounds, canvasWidth, canvasHeight]
    have hpath : pathSegments.any (fun seg => segmentBlocks seg.1 seg.2 (40 : ℚ) (520 : ℚ))
        = false := by
      simp [pathSegments, path, hb1, hb2, hb3, hb4, hb5, hb6, hb7]
    simp [isPositionValid, hoob, hpath]
  have hgx : (((⌊(45 : ℚ) / gridSize⌋ : ℤ) : ℚ) * gridSize) = 40 := by
    norm_num [gridSize]
  have hgy : (((⌊(530 : ℚ) / gridSize⌋ : ℤ) : ℚ) * gridSize) = 520 := by
    norm_num [gridSize]
  have hvalid : isPositionValid pvState.towers
      (((⌊(45 : ℚ) / gridSize⌋ : ℤ) : ℚ) * gridSize)
      (((⌊(530 : ℚ) / gridSize⌋ : ℤ) : ℚ) * gridSize) = true := by
    rw [hgx, hgy]
    exact hvalid0
  have h := placementValidation.2.2.1 pvState "basic" basicSpec 45 530 rfl rfl rfl hvalid
  refine ⟨?_, ?_, h.2.2⟩
  · rw [h.1]
    norm_num [basicSpec]
  · rw [h.2.1, hgx, hgy]

end TD
